import Mathlib

/-!
A shallow embedding of the snapshot & diff engine of the WindSurf Memory
Tracker utilities module (`ultis.py`), together with proofs settling the
specification claims about it.  Each definition is translated from the
corresponding source function.  Standard-library primitives the source
calls (hashlib.md5, the UTF-8 codec, difflib.SequenceMatcher /
unified_diff, str.splitlines, re patterns, ...) are embedded by
translating their reference algorithms; machine integers are modelled as
Nat with explicit `% 2^32` where the algorithm wraps.
-/

set_option maxRecDepth 4096

-- ===================================================================
-- Definitions
-- ===================================================================

-- ----- Python string primitives -----

/-- Whitespace as used by Python's str.strip and the regex class \s
(ASCII core; exotic Unicode spaces never occur in the inputs at issue). -/
def pyIsSpace (c : Char) : Bool :=
  c == ' ' || c == '\t' || c == '\n' || c == '\r' || c == Char.ofNat 11 || c == Char.ofNat 12

/-- Python str.lstrip (no argument: strip whitespace on the left). -/
def pyLStrip (l : List Char) : List Char := l.dropWhile pyIsSpace

/-- Python str.strip (both ends). -/
def pyStrip (l : List Char) : List Char :=
  ((l.dropWhile pyIsSpace).reverse.dropWhile pyIsSpace).reverse

/-- Line-boundary characters recognised by Python str.splitlines. -/
def isLineBreakChar (c : Char) : Bool :=
  c == '\n' || c == '\r' || c == Char.ofNat 11 || c == Char.ofNat 12 ||
  c == Char.ofNat 28 || c == Char.ofNat 29 || c == Char.ofNat 30 ||
  c == Char.ofNat 133 || c == Char.ofNat 8232 || c == Char.ofNat 8233

/-- Worker for splitlines.  The fuel argument is instantiated with the length
of the input, which each step strictly decreases, so the `0` branch with a
nonempty list is never reached; fuel keeps the recursion structural so that
concrete runs reduce inside the kernel. -/
def pySplitlinesAux : Nat → List Char → List (List Char)
  | _, [] => []
  | 0, _ => []
  | fuel+1, cs =>
      let line := cs.takeWhile (fun c => !isLineBreakChar c)
      match cs.dropWhile (fun c => !isLineBreakChar c) with
      | [] => [line]
      | '\r' :: '\n' :: r2 => line :: pySplitlinesAux fuel r2
      | _ :: r1 => line :: pySplitlinesAux fuel r1

/-- Python str.splitlines() (keepends=False): "" gives [], a trailing
newline does not produce a final empty line. -/
def pySplitlines (s : String) : List (List Char) :=
  pySplitlinesAux s.data.length s.data

/-- Join a list of lines with a newline separator: Python '\n'.join(lines). -/
def joinLines (ls : List (List Char)) : String :=
  String.mk (List.intercalate ['\n'] ls)

-- ----- MD5 (reference algorithm of hashlib.md5, RFC 1321) -----

/-- Left-rotation of a 32-bit word represented as a Nat below 2^32. -/
def rotl32 (x s : Nat) : Nat := ((x <<< s) % 4294967296) + (x >>> (32 - s))

/-- Bitwise complement on 32-bit words below 2^32. -/
def not32 (x : Nat) : Nat := 4294967295 - x

/-- The 64 MD5 sine-derived round constants, floor(2^32 * abs(sin(i+1))). -/
def md5K : List Nat :=
  [3614090360, 3905402710, 606105819, 3250441966, 4118548399, 1200080426,
   2821735955, 4249261313, 1770035416, 2336552879, 4294925233, 2304563134,
   1804603682, 4254626195, 2792965006, 1236535329, 4129170786, 3225465664,
   643717713, 3921069994, 3593408605, 38016083, 3634488961, 3889429448,
   568446438, 3275163606, 4107603335, 1163531501, 2850285829, 4243563512,
   1735328473, 2368359562, 4294588738, 2272392833, 1839030562, 4259657740,
   2763975236, 1272893353, 4139469664, 3200236656, 681279174, 3936430074,
   3572445317, 76029189, 3654602809, 3873151461, 530742520, 3299628645,
   4096336452, 1126891415, 2878612391, 4237533241, 1700485571, 2399980690,
   4293915773, 2240044497, 1873313359, 4264355552, 2734768916, 1309151649,
   4149444226, 3174756917, 718787259, 3951481745]

/-- The 64 MD5 per-round left-rotation amounts. -/
def md5S : List Nat :=
  [7, 12, 17, 22, 7, 12, 17, 22, 7, 12, 17, 22, 7, 12, 17, 22,
   5, 9, 14, 20, 5, 9, 14, 20, 5, 9, 14, 20, 5, 9, 14, 20,
   4, 11, 16, 23, 4, 11, 16, 23, 4, 11, 16, 23, 4, 11, 16, 23,
   6, 10, 15, 21, 6, 10, 15, 21, 6, 10, 15, 21, 6, 10, 15, 21]

/-- Little-endian byte decomposition of a 32-bit word. -/
def toLEBytes4 (w : Nat) : List Nat :=
  [w % 256, w / 256 % 256, w / 65536 % 256, w / 16777216 % 256]

/-- Little-endian byte decomposition of a 64-bit word. -/
def toLEBytes8 (w : Nat) : List Nat :=
  [w % 256, w / 256 % 256, w / 65536 % 256, w / 16777216 % 256,
   w / 4294967296 % 256, w / 1099511627776 % 256,
   w / 281474976710656 % 256, w / 72057594037927936 % 256]

/-- MD5 padding: 0x80, zeros to 56 mod 64, then the 64-bit little-endian
bit length.  (119 - len % 64) % 64 equals (55 - len) mod 64 over Int. -/
def md5Pad (msg : List Nat) : List Nat :=
  msg ++ 128 :: List.replicate ((119 - msg.length % 64) % 64) 0 ++
    toLEBytes8 ((msg.length * 8) % 18446744073709551616)

/-- Split into 64-byte blocks.  Fuel is instantiated with the list length,
which the recursion strictly decreases, so the `0` branch is dead. -/
def chunk64 : Nat → List Nat → List (List Nat)
  | _, [] => []
  | 0, _ => []
  | fuel+1, l => l.take 64 :: chunk64 fuel (l.drop 64)

/-- The g-th little-endian 32-bit word of a 64-byte block. -/
def md5Word (blk : List Nat) (g : Nat) : Nat :=
  blk.getD (4*g) 0 + 256 * blk.getD (4*g+1) 0 + 65536 * blk.getD (4*g+2) 0 +
    16777216 * blk.getD (4*g+3) 0

/-- Round function value and message index for round i. -/
def md5FG (b c d i : Nat) : Nat × Nat :=
  if i < 16 then ((b &&& c) ||| (not32 b &&& d), i)
  else if i < 32 then ((d &&& b) ||| (not32 d &&& c), (5*i+1) % 16)
  else if i < 48 then (b ^^^ c ^^^ d, (3*i+5) % 16)
  else (c ^^^ (b ||| not32 d), (7*i) % 16)

/-- One MD5 round: (A,B,C,D) -> (D, B + rotl(F,s), B, C) with F folded in. -/
def md5Round (blk : List Nat) (st : Nat × Nat × Nat × Nat) (i : Nat) :
    Nat × Nat × Nat × Nat :=
  let fg := md5FG st.2.1 st.2.2.1 st.2.2.2 i
  let f := (fg.1 + st.1 + md5K.getD i 0 + md5Word blk fg.2) % 4294967296
  (st.2.2.2, (st.2.1 + rotl32 f (md5S.getD i 0)) % 4294967296, st.2.1, st.2.2.1)

/-- Process one 64-byte block and add the result into the running state. -/
def md5Block (st0 : Nat × Nat × Nat × Nat) (blk : List Nat) :
    Nat × Nat × Nat × Nat :=
  let r := (List.range 64).foldl (md5Round blk) st0
  ((st0.1 + r.1) % 4294967296, (st0.2.1 + r.2.1) % 4294967296,
   (st0.2.2.1 + r.2.2.1) % 4294967296, (st0.2.2.2 + r.2.2.2) % 4294967296)

/-- MD5 digest of a byte sequence: the 16 output bytes. -/
def md5Digest (msg : List Nat) : List Nat :=
  let padded := md5Pad msg
  let st := (chunk64 padded.length padded).foldl md5Block
    (1732584193, 4023233417, 2562383102, 271733878)
  toLEBytes4 st.1 ++ toLEBytes4 st.2.1 ++ toLEBytes4 st.2.2.1 ++ toLEBytes4 st.2.2.2

/-- Lowercase hex digit for a value below 16 (as %x formatting uses). -/
def hexDigitChar : Nat → Char
  | 0 => '0' | 1 => '1' | 2 => '2' | 3 => '3' | 4 => '4' | 5 => '5'
  | 6 => '6' | 7 => '7' | 8 => '8' | 9 => '9' | 10 => 'a' | 11 => 'b'
  | 12 => 'c' | 13 => 'd' | 14 => 'e' | 15 => 'f' | _ => '?'

/-- Two lowercase hex characters of one byte ('%02x'). -/
def byteToHexChars (b : Nat) : List Char := [hexDigitChar (b / 16), hexDigitChar (b % 16)]

/-- Hex string of a byte sequence (bytes.hex() / hexdigest()). -/
def bytesToHexStr (bs : List Nat) : String := String.mk (bs.flatMap byteToHexChars)

/-- Membership in the lowercase hexadecimal alphabet. -/
def isLowerHexDigit (c : Char) : Bool := "0123456789abcdef".data.contains c

-- ----- UTF-8 encoding (str.encode('utf-8')) -----

/-- UTF-8 encoding of one Unicode scalar value. -/
def utf8EncodeChar (c : Char) : List Nat :=
  let n := c.toNat
  if n < 128 then [n]
  else if n < 2048 then [192 + n / 64, 128 + n % 64]
  else if n < 65536 then [224 + n / 4096, 128 + n / 64 % 64, 128 + n % 64]
  else [240 + n / 262144, 128 + n / 4096 % 64, 128 + n / 64 % 64, 128 + n % 64]

/-- UTF-8 encoding of a character sequence. -/
def utf8Encode (cs : List Char) : List Nat := cs.flatMap utf8EncodeChar

/-- Embeds compute_file_hash (src/ultis.py, lines 42-52):
hashlib.md5(content.encode('utf-8')).hexdigest(). -/
def compute_file_hash (content : String) : String :=
  bytesToHexStr (md5Digest (utf8Encode content.data))

-- ----- UTF-8 decoding (bytes.decode('utf-8')) and the content codec -----

/-- Strict UTF-8 decoder (bytes.decode('utf-8')): rejects stray continuation
bytes, overlong forms, surrogates and values beyond U+10FFFF; any error makes
the whole decode fail (Python raises UnicodeDecodeError).  Fuel is
instantiated with the byte count, which each step strictly decreases, so the
`0` branch with a nonempty list is never reached. -/
def utf8DecodeAux : Nat → List Nat → Option (List Char)
  | _, [] => some []
  | 0, _ => none
  | fuel+1, b0 :: rest =>
    if b0 < 128 then
      (utf8DecodeAux fuel rest).map (fun cs => Char.ofNat b0 :: cs)
    else if b0 < 194 then none
    else if b0 < 224 then
      match rest with
      | b1 :: rest2 =>
        if 128 ≤ b1 ∧ b1 < 192 then
          (utf8DecodeAux fuel rest2).map
            (fun cs => Char.ofNat ((b0 - 192) * 64 + (b1 - 128)) :: cs)
        else none
      | [] => none
    else if b0 < 240 then
      match rest with
      | b1 :: b2 :: rest3 =>
        if (128 ≤ b1 ∧ b1 < 192) ∧ (128 ≤ b2 ∧ b2 < 192) ∧
            (b0 ≠ 224 ∨ 160 ≤ b1) ∧ (b0 ≠ 237 ∨ b1 < 160) then
          (utf8DecodeAux fuel rest3).map
            (fun cs => Char.ofNat ((b0 - 224) * 4096 + (b1 - 128) * 64 + (b2 - 128)) :: cs)
        else none
      | _ => none
    else if b0 < 245 then
      match rest with
      | b1 :: b2 :: b3 :: rest4 =>
        if (128 ≤ b1 ∧ b1 < 192) ∧ (128 ≤ b2 ∧ b2 < 192) ∧ (128 ≤ b3 ∧ b3 < 192) ∧
            (b0 ≠ 240 ∨ 144 ≤ b1) ∧ (b0 ≠ 244 ∨ b1 < 144) then
          (utf8DecodeAux fuel rest4).map
            (fun cs => Char.ofNat
              ((b0 - 240) * 262144 + (b1 - 128) * 4096 + (b2 - 128) * 64 + (b3 - 128)) :: cs)
        else none
      | _ => none
    else none

/-- Strict UTF-8 decode of a byte sequence. -/
def utf8Decode (bs : List Nat) : Option (List Char) := utf8DecodeAux bs.length bs

/-- Embeds compress_content (src/ultis.py, lines 55-65):
zlib.compress(content.encode('utf-8')).  zlib's DEFLATE transform is an
external library primitive; it is taken as the parameter zlibCompress.
Pairing it with a zlibDecompress satisfying the library's documented
lossless round-trip contract is stated as an explicit hypothesis in the
round-trip theorem. -/
def compress_content (zlibCompress : List Nat → List Nat) (content : String) : List Nat :=
  zlibCompress (utf8Encode content.data)

/-- Embeds decompress_content (src/ultis.py, lines 68-78):
zlib.decompress(compressed_data).decode('utf-8').  A decode failure
(Python's UnicodeDecodeError) is modelled by the Option result. -/
def decompress_content (zlibDecompress : List Nat → List Nat)
    (compressed_data : List Nat) : Option String :=
  (utf8Decode (zlibDecompress compressed_data)).map fun cs => String.mk cs

-- ----- Regex pieces used by the analyzers -----

/-- ASCII model of the regex class \w (identifier characters).  The inputs
the claims quantify over contain no non-ASCII identifier characters, where
Python's Unicode \w would differ. -/
def isWordChar (c : Char) : Bool := c.isAlpha || c.isDigit || c == '_'

/-- Match a literal at the head of the input, returning the remainder. -/
def afterLit (lit : String) (l : List Char) : Option (List Char) :=
  if lit.data.isPrefixOf l then some (l.drop lit.data.length) else none

/-- Regex \s+ : at least one whitespace character, consumed greedily.  The
patterns at issue never follow \s+ with something whitespace can satisfy, so
greedy consumption is equivalent to backtracking. -/
def spacePlus (l : List Char) : Option (List Char) :=
  match l with
  | c :: rest => if pyIsSpace c then some (rest.dropWhile pyIsSpace) else none
  | [] => none

/-- Regex \w+ : a nonempty maximal identifier-character run and the
remainder.  Maximal munch is equivalent to the backtracking regex in every
pattern below, because a shorter match leaves a word character where the
continuation (\s, '(' , ':' or end of pattern followed by \s) must match. -/
def wordPlus (l : List Char) : Option (List Char × List Char) :=
  let w := l.takeWhile isWordChar
  if w.isEmpty then none else some (w, l.dropWhile isWordChar)

/-- re.match(r'^\s*def\s+(\w+)\s*\(', line): the captured function name. -/
def defNameMatch (line : List Char) : Option (List Char) :=
  match afterLit "def" (line.dropWhile pyIsSpace) with
  | none => none
  | some l2 =>
    match spacePlus l2 with
    | none => none
    | some l3 =>
      match wordPlus l3 with
      | none => none
      | some (w, l4) =>
        if (l4.dropWhile pyIsSpace).head? = some '(' then some w else none

/-- re.match(r'^\s*class\s+\w+', line). -/
def classMatch (line : List Char) : Bool :=
  match afterLit "class" (line.dropWhile pyIsSpace) with
  | none => false
  | some l2 =>
    match spacePlus l2 with
    | none => false
    | some l3 => (wordPlus l3).isSome

/-- re.match(r'^\s*import\s+|^\s*from\s+\w+\s+import', line). -/
def importMatch (line : List Char) : Bool :=
  let l1 := line.dropWhile pyIsSpace
  (match afterLit "import" l1 with
   | some l2 => (spacePlus l2).isSome
   | none => false) ||
  (match afterLit "from" l1 with
   | some l2 =>
     match spacePlus l2 with
     | some l3 =>
       match wordPlus l3 with
       | some wl4 => (match spacePlus wl4.2 with
         | some l5 => ("import".data).isPrefixOf l5
         | none => false)
       | none => false
     | none => false
   | none => false)

/-- Substring containment test (Python's `needle in haystack`). -/
def listContainsSeq (needle : List Char) : List Char → Bool
  | [] => needle.isEmpty
  | c :: rest => needle.isPrefixOf (c :: rest) || listContainsSeq needle rest

/-- The single-quote character. -/
def squote : Char := Char.ofNat 39

/-- The docstring delimiter consisting of three single quotes. -/
def tripleSQuote : List Char := [squote, squote, squote]

/-- The docstring delimiter consisting of three double quotes. -/
def tripleDQuote : List Char := ['"', '"', '"']

-- ----- CodeMetrics (count_code_metrics) -----

/-- The dictionary returned by count_code_metrics, as a record.  code_lines
is Int, exactly as the Python subtraction computes it; the two derived
float fields are modelled over exact rationals. -/
structure CodeMetrics where
  total_lines : Nat
  code_lines : Int
  comment_lines : Nat
  blank_lines : Nat
  docstring_lines : Nat
  function_count : Nat
  class_count : Nat
  import_count : Nat
  todo_count : Nat
  max_line_length : Nat
  avg_line_length : ℚ
  comment_ratio : ℚ
deriving DecidableEq

/-- Round a rational to the nearest integer, ties to even (Python round). -/
def roundHalfEven (q : ℚ) : ℤ :=
  let f := Int.floor q
  if q - f < 1/2 then f
  else if 1/2 < q - f then f + 1
  else if f % 2 = 0 then f else f + 1

/-- Python round(x, 2), modelled exactly over the rationals.  (The source
rounds IEEE floats; no claim constrains the two fields this feeds.) -/
def pyRound2 (q : ℚ) : ℚ := (roundHalfEven (q * 100) : ℚ) / 100

/-- Per-line scanner state of count_code_metrics: the bucket and item
counters plus the docstring state machine (in_docstring, delimiter). -/
structure MetricsAcc where
  blank : Nat
  comment : Nat
  docstring : Nat
  fnCount : Nat
  clsCount : Nat
  impCount : Nat
  todoCount : Nat
  inDoc : Bool
  delim : List Char
deriving DecidableEq

/-- The all-zero initial scanner state. -/
def metricsInit : MetricsAcc := ⟨0, 0, 0, 0, 0, 0, 0, false, []⟩

/-- One iteration of the scanning loop of count_code_metrics, in the
source's branch order: blank, inside-docstring, docstring start, comment
(with TODO counting), def, class, import, plain code. -/
def metricsStep (acc : MetricsAcc) (line : List Char) : MetricsAcc :=
  let stripped := pyStrip line
  if stripped.isEmpty then { acc with blank := acc.blank + 1 }
  else if acc.inDoc then
    { acc with docstring := acc.docstring + 1,
               inDoc := !(acc.delim.isSuffixOf stripped) }
  else if tripleDQuote.isPrefixOf stripped || tripleSQuote.isPrefixOf stripped then
    { acc with docstring := acc.docstring + 1, delim := stripped.take 3,
               inDoc := !(decide (stripped.length > 3) &&
                          (stripped.take 3).isSuffixOf stripped) }
  else if stripped.head? = some '#' then
    { acc with comment := acc.comment + 1,
               todoCount := acc.todoCount +
                 (if listContainsSeq ("TODO".data) (stripped.map Char.toUpper) then 1 else 0) }
  else if (defNameMatch line).isSome then { acc with fnCount := acc.fnCount + 1 }
  else if classMatch line then { acc with clsCount := acc.clsCount + 1 }
  else if importMatch line then { acc with impCount := acc.impCount + 1 }
  else acc

/-- Embeds count_code_metrics (src/ultis.py, lines 494-603). -/
def count_code_metrics (content : String) : CodeMetrics :=
  if content = "" then ⟨0, 0, 0, 0, 0, 0, 0, 0, 0, 0, 0, 0⟩
  else
    let lines := pySplitlines content
    let acc := lines.foldl metricsStep metricsInit
    let total := lines.length
    let lineLengths := lines.map List.length
    { total_lines := total
      code_lines := (total : Int) - acc.blank - acc.comment - acc.docstring
      comment_lines := acc.comment
      blank_lines := acc.blank
      docstring_lines := acc.docstring
      function_count := acc.fnCount
      class_count := acc.clsCount
      import_count := acc.impCount
      todo_count := acc.todoCount
      max_line_length := lineLengths.foldr max 0
      avg_line_length :=
        if lineLengths.length ≠ 0 then
          pyRound2 ((lineLengths.sum : ℚ) / (lineLengths.length : ℚ))
        else 0
      comment_ratio :=
        if total ≠ 0 then
          pyRound2 ((((acc.comment + acc.docstring : Nat)) : ℚ) / (total : ℚ) * 100)
        else 0 }

-- ----- difflib.SequenceMatcher(None, a, b) -----

/-- All indices at which x occurs, starting the count at i (difflib's b2j
position lists, which are ascending). -/
def positionsFrom [DecidableEq α] (x : α) : List α → Nat → List Nat
  | [], _ => []
  | y :: t, i => if y = x then i :: positionsFrom x t (i+1) else positionsFrom x t (i+1)

/-- Occurrence count of x in l. -/
def listCount [DecidableEq α] (l : List α) (x : α) : Nat :=
  (l.filter (fun y => y = x)).length

/-- difflib autojunk: with isjunk=None and autojunk=True (the defaults the
source uses), an element of b is "popular" when len(b) >= 200 and it occurs
more than len(b)//100 + 1 times; popular elements are deleted from b2j.
The separate bjunk set stays empty because isjunk is None. -/
def isPopular [DecidableEq α] (b : List α) (x : α) : Bool :=
  decide (200 ≤ b.length) && decide (b.length / 100 + 1 < listCount b x)

/-- b2j.get(x, []): the ascending occurrence positions, unless popular. -/
def b2jGet [DecidableEq α] (b : List α) (x : α) : List Nat :=
  if isPopular b x then [] else positionsFrom x b 0

/-- The running best match (besti, bestj, bestsize) of find_longest_match. -/
structure DPBest where
  i : Nat
  j : Nat
  size : Nat
deriving DecidableEq

/-- The inner loop of find_longest_match's dynamic program over the
candidate positions b2j[a[i]] (ascending).  Faithful to the source:
positions below blo are skipped (continue), the loop stops at the first
position ≥ bhi (break), k = newj2len[j] = j2len.get(j-1, 0) + 1 (the dict
lookup at key -1 returns the default 0, hence the j = 0 special case), and
best is replaced only on strictly greater k.  The j2len dicts are modelled
as total functions defaulting to 0. -/
def dpInner (j2len : Nat → Nat) (blo bhi i : Nat) :
    List Nat → (Nat → Nat) → DPBest → ((Nat → Nat) × DPBest)
  | [], newj, best => (newj, best)
  | j :: rest, newj, best =>
    if j < blo then dpInner j2len blo bhi i rest newj best
    else if bhi ≤ j then (newj, best)
    else
      let k := (if j = 0 then 0 else j2len (j - 1)) + 1
      let newj2 := fun x => if x = j then k else newj x
      -- Python's besti = i-k+1, bestj = j-k+1; k never exceeds i+1 (resp.
      -- j+1), so i+1-k is the same integer and stays exact over Nat.
      let best2 := if best.size < k then DPBest.mk (i + 1 - k) (j + 1 - k) k else best
      dpInner j2len blo bhi i rest newj2 best2

/-- The outer loop of the dynamic program, over the rows alo..ahi-1; each
row starts from a fresh newj2len = {}. -/
def dpRows [DecidableEq α] [Inhabited α] (a b : List α) (blo bhi : Nat) :
    List Nat → (Nat → Nat) → DPBest → DPBest
  | [], _, best => best
  | i :: rest, j2len, best =>
    let r := dpInner j2len blo bhi i (b2jGet b (a.getD i default)) (fun _ => 0) best
    dpRows a b blo bhi rest r.1 r.2

/-- First extension loop of find_longest_match: extend left while the
preceding elements are equal.  Its junk test `not isbjunk(b[bestj-1])` is
vacuously true because bjunk is empty (isjunk=None).  Fuel is instantiated
with best.i, a bound on the iteration count, so the 0 branch only fires
when the loop guard is false anyway. -/
def extendLeft [DecidableEq α] [Inhabited α] (a b : List α) (alo blo : Nat) :
    Nat → DPBest → DPBest
  | 0, best => best
  | fuel+1, best =>
    if alo < best.i ∧ blo < best.j ∧
        a.getD (best.i - 1) default = b.getD (best.j - 1) default then
      extendLeft a b alo blo fuel ⟨best.i - 1, best.j - 1, best.size + 1⟩
    else best

/-- Second extension loop of find_longest_match: extend right while the
following elements are equal (junk test again vacuous).  Fuel is
instantiated with ahi - besti - bestsize, a bound on the iteration count.
The source's remaining two loops, which extend across junk elements, are
omitted: their guards contain `isbjunk(...)`, which is False everywhere
since bjunk is empty. -/
def extendRight [DecidableEq α] [Inhabited α] (a b : List α) (ahi bhi : Nat) :
    Nat → DPBest → DPBest
  | 0, best => best
  | fuel+1, best =>
    if best.i + best.size < ahi ∧ best.j + best.size < bhi ∧
        a.getD (best.i + best.size) default = b.getD (best.j + best.size) default then
      extendRight a b ahi bhi fuel ⟨best.i, best.j, best.size + 1⟩
    else best

/-- find_longest_match(alo, ahi, blo, bhi) of a SequenceMatcher built with
isjunk=None on sequences a, b. -/
def findLongestMatch [DecidableEq α] [Inhabited α] (a b : List α)
    (alo ahi blo bhi : Nat) : DPBest :=
  let d := dpRows a b blo bhi (List.range' alo (ahi - alo)) (fun _ => 0) ⟨alo, blo, 0⟩
  let e1 := extendLeft a b alo blo d.i d
  extendRight a b ahi bhi (ahi - e1.i - e1.size) e1

/-- Weight of a queue entry (alo, ahi, blo, bhi), used as loop fuel. -/
def rangeWeight (r : Nat × Nat × Nat × Nat) : Nat :=
  (r.2.1 - r.1) + (r.2.2.2 - r.2.2.1) + 1

/-- Total weight of the queue. -/
def queueWeight (q : List (Nat × Nat × Nat × Nat)) : Nat :=
  (q.map rangeWeight).sum

/-- The queue loop of get_matching_blocks.  Python's queue is a LIFO list
(append twice, pop from the end), so the stack is modelled head-as-top with
the right subregion pushed on top.  Fuel is instantiated with queueWeight
of the initial queue, which strictly decreases every iteration (a match of
size k ≥ 1 removes 2k ≥ 2 weight and adds back at most 1), so the 0 branch
with a nonempty queue is dead. -/
def gmbLoop [DecidableEq α] [Inhabited α] (a b : List α) :
    Nat → List (Nat × Nat × Nat × Nat) → List (Nat × Nat × Nat) →
    List (Nat × Nat × Nat)
  | _, [], acc => acc
  | 0, _ :: _, acc => acc
  | fuel+1, (alo, ahi, blo, bhi) :: rest, acc =>
    let m := findLongestMatch a b alo ahi blo bhi
    if 0 < m.size then
      gmbLoop a b fuel
        ((if m.i + m.size < ahi ∧ m.j + m.size < bhi then
            [(m.i + m.size, ahi, m.j + m.size, bhi)] else []) ++
         (if alo < m.i ∧ blo < m.j then [(alo, m.i, blo, m.j)] else []) ++ rest)
        (acc ++ [(m.i, m.j, m.size)])
    else gmbLoop a b fuel rest acc

/-- Lexicographic order on block triples, as list.sort() compares tuples. -/
def tripleLE (x y : Nat × Nat × Nat) : Bool :=
  decide (x.1 < y.1) ||
    (x.1 == y.1 && (decide (x.2.1 < y.2.1) ||
      (x.2.1 == y.2.1 && decide (x.2.2 ≤ y.2.2))))

/-- Insertion step of the stable sort on block triples. -/
def insertTriple (x : Nat × Nat × Nat) :
    List (Nat × Nat × Nat) → List (Nat × Nat × Nat)
  | [] => [x]
  | y :: t => if tripleLE x y then x :: y :: t else y :: insertTriple x t

/-- matching_blocks.sort(). -/
def sortTriples : List (Nat × Nat × Nat) → List (Nat × Nat × Nat)
  | [] => []
  | x :: t => insertTriple x (sortTriples t)

/-- The adjacency-merging loop of get_matching_blocks: running (i1, j1, k1)
absorbs an adjacent next block, a zero-size running block is dropped. -/
def mergeAdjacent : (Nat × Nat × Nat) → List (Nat × Nat × Nat) →
    List (Nat × Nat × Nat)
  | (i1, j1, k1), [] => if k1 ≠ 0 then [(i1, j1, k1)] else []
  | (i1, j1, k1), (i2, j2, k2) :: rest =>
    if i1 + k1 = i2 ∧ j1 + k1 = j2 then mergeAdjacent (i1, j1, k1 + k2) rest
    else (if k1 ≠ 0 then [(i1, j1, k1)] else []) ++ mergeAdjacent (i2, j2, k2) rest

/-- get_matching_blocks(): queue-driven divide and conquer, sort, merge
adjacent blocks, and append the (la, lb, 0) sentinel. -/
def getMatchingBlocks [DecidableEq α] [Inhabited α] (a b : List α) :
    List (Nat × Nat × Nat) :=
  let q0 := [(0, a.length, 0, b.length)]
  let blocks := gmbLoop a b (queueWeight q0) q0 []
  mergeAdjacent (0, 0, 0) (sortTriples blocks) ++ [(a.length, b.length, 0)]

/-- SequenceMatcher.ratio(): 2*M/T where M is the total size of the
matching blocks and T the combined length; 1.0 when T = 0.  Exact rational
in place of the source's float, which is exact at every value any claim
depends on. -/
def matcherSimilarity [DecidableEq α] [Inhabited α] (a b : List α) : ℚ :=
  let total := ((getMatchingBlocks a b).map (fun t => t.2.2)).sum
  if a.length + b.length ≠ 0 then
    (2 * total : ℚ) / ((a.length + b.length : Nat) : ℚ)
  else 1

/-- Embeds is_significant_change (src/ultis.py, lines 155-176).  The
threshold (source default 0.05) is always passed explicitly here. -/
def is_significant_change (old_content new_content : String) (threshold : ℚ) : Bool :=
  if old_content = "" ∨ new_content = "" then true
  else decide (threshold < 1 - matcherSimilarity old_content.data new_content.data)

/-- Proof-auxiliary characterization (not part of the embedding): the value
the j2len dynamic program of find_longest_match holds at (row i, column j)
when both sequences are the same list s over the full range — the length of
the common non-popular run ending at (i, j).  Used to prove that on
identical inputs the best match stays on the diagonal. -/
def mdp [DecidableEq α] [Inhabited α] (s : List α) : Nat → Nat → Nat
  | 0, j =>
    if s.getD j default = s.getD 0 default ∧
        isPopular s (s.getD 0 default) = false ∧ j < s.length then 1 else 0
  | i2+1, j =>
    if s.getD j default = s.getD (i2+1) default ∧
        isPopular s (s.getD (i2+1) default) = false ∧ j < s.length then
      match j with
      | 0 => 1
      | j2+1 => mdp s i2 j2 + 1
    else 0

/-- Proof-auxiliary: the j2len function entering row `start` (all zeros for
the first row, otherwise the previous row of the ghost table). -/
def prevRow [DecidableEq α] [Inhabited α] (s : List α) : Nat → Nat → Nat
  | 0, _ => 0
  | i2+1, x => mdp s i2 x

-- ----- difflib.unified_diff and generate_diff -----

/-- get_opcodes(): fold the matching blocks into tagged ranges, carrying
the cursor (i, j). -/
def getOpcodesAux : Nat → Nat → List (Nat × Nat × Nat) →
    List (String × Nat × Nat × Nat × Nat)
  | _, _, [] => []
  | i, j, (ai, bj, size) :: rest =>
    (if i < ai ∧ j < bj then [("replace", i, ai, j, bj)]
     else if i < ai then [("delete", i, ai, j, bj)]
     else if j < bj then [("insert", i, ai, j, bj)]
     else []) ++
    (if size ≠ 0 then [("equal", ai, ai + size, bj, bj + size)] else []) ++
    getOpcodesAux (ai + size) (bj + size) rest

/-- get_opcodes() of SequenceMatcher(None, a, b). -/
def getOpcodes [DecidableEq α] [Inhabited α] (a b : List α) :
    List (String × Nat × Nat × Nat × Nat) :=
  getOpcodesAux 0 0 (getMatchingBlocks a b)

/-- get_grouped_opcodes: trim a leading equal run to n context lines. -/
def fixupHead (n : Nat) : List (String × Nat × Nat × Nat × Nat) →
    List (String × Nat × Nat × Nat × Nat)
  | [] => []
  | (tag, i1, i2, j1, j2) :: rest =>
    if tag = "equal" then (tag, max i1 (i2 - n), i2, max j1 (j2 - n), j2) :: rest
    else (tag, i1, i2, j1, j2) :: rest

/-- get_grouped_opcodes: trim a trailing equal run to n context lines. -/
def fixupLast (n : Nat) (codes : List (String × Nat × Nat × Nat × Nat)) :
    List (String × Nat × Nat × Nat × Nat) :=
  match codes.getLast? with
  | some (tag, i1, i2, j1, j2) =>
    if tag = "equal" then
      codes.dropLast ++ [(tag, i1, min i2 (i1 + n), j1, min j2 (j1 + n))]
    else codes
  | none => []

/-- get_grouped_opcodes: split the code list into hunk groups at equal
runs longer than 2n, keeping n context lines on each side; a final group
that is a single equal opcode is not emitted. -/
def groupSplit (n : Nat) : List (String × Nat × Nat × Nat × Nat) →
    List (List (String × Nat × Nat × Nat × Nat)) →
    List (String × Nat × Nat × Nat × Nat) →
    List (List (String × Nat × Nat × Nat × Nat))
  | [], groups, group =>
    groups ++ (if group ≠ [] ∧
        ¬(group.length = 1 ∧ (group.headD ("", 0, 0, 0, 0)).1 = "equal") then
      [group] else [])
  | (tag, i1, i2, j1, j2) :: rest, groups, group =>
    if tag = "equal" ∧ 2 * n < i2 - i1 then
      groupSplit n rest
        (groups ++ [group ++ [(tag, i1, min i2 (i1 + n), j1, min j2 (j1 + n))]])
        [(tag, max i1 (i2 - n), i2, max j1 (j2 - n), j2)]
    else groupSplit n rest groups (group ++ [(tag, i1, i2, j1, j2)])

/-- get_grouped_opcodes(n) (source uses the default n=3). -/
def getGroupedOpcodes [DecidableEq α] [Inhabited α] (a b : List α) (n : Nat) :
    List (List (String × Nat × Nat × Nat × Nat)) :=
  let codes0 := getOpcodes a b
  let codes1 := if codes0 = [] then [("equal", 0, 1, 0, 1)] else codes0
  groupSplit n (fixupLast n (fixupHead n codes1)) [] []

/-- difflib's _format_range_unified: 1-based start, ",len" omitted when the
length is 1; an empty range starts at the line just before it. -/
def formatRangeUnified (start stop : Nat) : String :=
  let length := stop - start
  if length = 1 then toString (start + 1)
  else toString (if length = 0 then start else start + 1) ++ "," ++ toString length

/-- The body lines one opcode contributes to a hunk. -/
def opcodeLines (a b : List (List Char)) (op : String × Nat × Nat × Nat × Nat) :
    List (List Char) :=
  if op.1 = "equal" then
    ((a.drop op.2.1).take (op.2.2.1 - op.2.1)).map (fun l => ' ' :: l)
  else
    (if op.1 = "replace" ∨ op.1 = "delete" then
      ((a.drop op.2.1).take (op.2.2.1 - op.2.1)).map (fun l => '-' :: l) else []) ++
    (if op.1 = "replace" ∨ op.1 = "insert" then
      ((b.drop op.2.2.2.1).take (op.2.2.2.2 - op.2.2.2.1)).map (fun l => '+' :: l) else [])

/-- One hunk of unified_diff: the @@ header (ranges spanning the group)
followed by the group's body lines. -/
def groupLines (a b : List (List Char)) (g : List (String × Nat × Nat × Nat × Nat)) :
    List (List Char) :=
  match g.head?, g.getLast? with
  | some first, some last =>
    ("@@ -" ++ formatRangeUnified first.2.1 last.2.2.1 ++ " +" ++
      formatRangeUnified first.2.2.2.1 last.2.2.2.2 ++ " @@").data ::
    g.flatMap (opcodeLines a b)
  | _, _ => []

/-- Embeds generate_diff (src/ultis.py, lines 81-103): '\n'.join of
difflib.unified_diff(old_lines, new_lines, fromfile='previous',
tofile='current', lineterm='') with the default context n=3; the two ---
and +++ file headers are emitted before the first hunk only. -/
def generate_diff (old_content new_content : String) : String :=
  let old_lines := pySplitlines old_content
  let new_lines := pySplitlines new_content
  let groups := getGroupedOpcodes old_lines new_lines 3
  joinLines
    ((if groups = [] then [] else [("--- previous").data, ("+++ current").data]) ++
     groups.flatMap (groupLines old_lines new_lines))

-- ----- apply_diff -----

/-- The one Python exception reachable in apply_diff. -/
inductive PyErr where
  | indexError
deriving DecidableEq

/-- Python list indexing: a negative index counts from the end; reading an
index out of range (in particular any index into an empty list) raises
IndexError, modelled as none. -/
def pyIndex (n : Nat) (i : Int) : Option Nat :=
  if i < 0 then (if 0 ≤ i + n then some (i + n).toNat else none)
  else if i < n then some i.toNat else none

/-- Python list.insert: the position is clamped, with a negative index
counting from the end. -/
def pyInsert (l : List α) (i : Int) (x : α) : List α :=
  let n : Int := l.length
  let idx := if i < 0 then (if i + n < 0 then 0 else i + n) else (if n < i then n else i)
  List.insertIdx idx.toNat x l

/-- A nonempty run of decimal digits (regex \d+) and the remainder. -/
def digitsPlus (l : List Char) : Option (Nat × List Char) :=
  let ds := l.takeWhile Char.isDigit
  if ds.isEmpty then none
  else some (ds.foldl (fun acc c => acc * 10 + (c.toNat - 48)) 0, l.dropWhile Char.isDigit)

/-- re.match(r'@@ -(\d+),(\d+) \+(\d+),(\d+) @@', line): the third captured
group (the new-file start) when the anchored pattern matches; re.match
allows trailing content. -/
def parseHunkHeader (line : List Char) : Option Nat :=
  match afterLit "@@ -" line with
  | none => none
  | some r1 => match digitsPlus r1 with
    | none => none
    | some dr2 => match afterLit "," dr2.2 with
      | none => none
      | some r3 => match digitsPlus r3 with
        | none => none
        | some dr4 => match afterLit " +" dr4.2 with
          | none => none
          | some r5 => match digitsPlus r5 with
            | none => none
            | some dr6 => match afterLit "," dr6.2 with
              | none => none
              | some r7 => match digitsPlus r7 with
                | none => none
                | some dr8 => if (" @@".data).isPrefixOf dr8.2 then some dr6.1 else none

/-- One iteration of apply_diff's replay loop over (result_lines, line_idx):
a matching hunk header repositions the cursor (a malformed one is ignored,
leaving the cursor unchanged); '+' inserts at the cursor and advances; '-'
reads result_lines[line_idx] after the `line_idx < len` guard (which a
negative cursor passes, so the read raises IndexError on an empty list) and
pops only on text match; a '\' line is skipped; any other line advances the
cursor. -/
def applyDiffStep (st : List (List Char) × Int) (l : List Char) :
    Except PyErr (List (List Char) × Int) :=
  if ("@@".data).isPrefixOf l then
    match parseHunkHeader l with
    | some g3 => .ok (st.1, (g3 : Int) - 1)
    | none => .ok st
  else if l.head? = some '+' then
    .ok (pyInsert st.1 st.2 l.tail, st.2 + 1)
  else if l.head? = some '-' then
    if st.2 < (st.1.length : Int) then
      match pyIndex st.1.length st.2 with
      | none => .error .indexError
      | some k =>
        if st.1.getD k [] = l.tail then .ok (st.1.eraseIdx k, st.2)
        else .ok st
    else .ok st
  else if l.head? = some '\\' then .ok st
  else .ok (st.1, st.2 + 1)

/-- The header scan of apply_diff: start_idx is moved past each line that
opens with three minus or three plus signs; when two such lines are
adjacent the loop breaks just after them. -/
def findDiffStart : List (List Char) → Nat → Nat → Nat
  | [], _, acc => acc
  | l :: rest, i, acc =>
    if ("+++".data).isPrefixOf l ∨ ("---".data).isPrefixOf l then
      match rest with
      | next :: _ =>
        if ("+++".data).isPrefixOf next ∨ ("---".data).isPrefixOf next then i + 2
        else findDiffStart rest (i+1) (i+1)
      | [] => i + 1
    else findDiffStart rest (i+1) acc

/-- Embeds apply_diff (src/ultis.py, lines 106-152).  The uncaught
IndexError Python can raise is modelled by the Except error. -/
def apply_diff (original_content diff_content : String) : Except PyErr String :=
  let diff_lines := pySplitlines diff_content
  let start_idx := findDiffStart diff_lines 0 0
  ((diff_lines.drop start_idx).foldlM applyDiffStep
      (pySplitlines original_content, (0 : Int))).map
    (fun r => joinLines r.1)

-- ----- detect_code_smells -----

/-- re.search(r'\bglobal\b', line): an occurrence of "global" with no
identifier character adjacent on either side.  The recursion carries the
character preceding the current suffix for the left boundary test. -/
def searchGlobalWord : Option Char → List Char → Bool
  | prev, c :: rest =>
    (("global".data).isPrefixOf (c :: rest) &&
     (match prev with | some p => !isWordChar p | none => true) &&
     (match (c :: rest).drop 6 with | d :: _ => !isWordChar d | [] => true)) ||
    searchGlobalWord (some c) rest
  | _, [] => false

/-- re.search(r'[^\w]\d{3,}[^\w]', line): some non-word character followed
by three or more digits followed by a non-word character.  The maximal
digit run decides: shortening it would put a digit (a word character) where
the final [^\w] must match. -/
def magicNumberSearch : List Char → Bool
  | [] => false
  | c :: rest =>
    (!isWordChar c &&
     decide (3 ≤ (rest.takeWhile Char.isDigit).length) &&
     (match rest.dropWhile Char.isDigit with
      | d :: _ => !isWordChar d
      | [] => false)) ||
    magicNumberSearch rest

/-- re.match(r'^\s*def\s+(\w{1,2})\s*\(', line): the short captured name.
Matches exactly when the full identifier run after def has length 1 or 2
and is followed by \s*'(' — a longer run cannot match because the regex
would leave a word character where \s*\( must start. -/
def shortDefMatch (line : List Char) : Option (List Char) :=
  match defNameMatch line with
  | some w => if w.length ≤ 2 then some w else none
  | none => none

/-- re.match(r'^\s*class\s+(\w{1,2})\s*[:\(]', line): the short class name,
by the same maximal-munch argument. -/
def shortClassMatch (line : List Char) : Option (List Char) :=
  match afterLit "class" (line.dropWhile pyIsSpace) with
  | none => none
  | some l2 => match spacePlus l2 with
    | none => none
    | some l3 => match wordPlus l3 with
      | none => none
      | some wl4 =>
        if wl4.1.length ≤ 2 ∧
            ((wl4.2.dropWhile pyIsSpace).head? = some ':' ∨
             (wl4.2.dropWhile pyIsSpace).head? = some '(') then
          some wl4.1
        else none

/-- One smell record: the dict {type, line, message, severity}. -/
structure CodeSmell where
  type : String
  line : Nat
  message : String
  severity : String
deriving DecidableEq

/-- The main-pass state of detect_code_smells: emitted smells plus the
long-function tracker (current_function, function_start_line,
function_lines, in_function). -/
structure SmellAcc where
  smells : List CodeSmell
  currentFunction : List Char
  functionStartLine : Nat
  functionLines : Nat
  inFunction : Bool
deriving DecidableEq

/-- One iteration of the main pass of detect_code_smells, in source order:
skip blank/comment lines; long_line; global_variable; the def tracker
(flushing a pending long_function at the start line of the finished
function); deep_nesting; magic_number. -/
def smellStep (acc : SmellAcc) (il : Nat × List Char) : SmellAcc :=
  let i := il.1
  let line := il.2
  let stripped := pyStrip line
  if stripped.isEmpty ∨ stripped.head? = some '#' then acc
  else
    let s1 := if 100 < line.length then
        acc.smells ++ [CodeSmell.mk "long_line" (i + 1)
          ("Dòng quá dài (" ++ toString line.length ++ " ký tự)") "low"]
      else acc.smells
    let s2 := if searchGlobalWord none line then
        s1 ++ [CodeSmell.mk "global_variable" (i + 1) "Sử dụng biến toàn cục" "medium"]
      else s1
    let st3 :=
      match defNameMatch line with
      | some name =>
        let s3 := if acc.inFunction ∧ 50 < acc.functionLines then
            s2 ++ [CodeSmell.mk "long_function" (acc.functionStartLine + 1)
              ("Hàm " ++ String.mk acc.currentFunction ++ " quá dài (" ++
                toString acc.functionLines ++ " dòng)") "medium"]
          else s2
        SmellAcc.mk s3 name i 0 true
      | none =>
        SmellAcc.mk s2 acc.currentFunction acc.functionStartLine
          (if acc.inFunction then acc.functionLines + 1 else acc.functionLines)
          acc.inFunction
    let indent := line.length - (pyLStrip line).length
    let s4 := if 16 ≤ indent then
        st3.smells ++ [CodeSmell.mk "deep_nesting" (i + 1)
          ("Độ sâu lồng nhau quá lớn (" ++ toString (indent / 4) ++ " cấp)") "medium"]
      else st3.smells
    let s5 := if magicNumberSearch line ∧ ¬(stripped.head? = some '#') then
        s4 ++ [CodeSmell.mk "magic_number" (i + 1) "Sử dụng magic number" "low"]
      else s4
    { st3 with smells := s5 }

/-- The second pass of detect_code_smells: short function and class names,
appended after everything the main pass produced. -/
def shortNameStep (sl : List CodeSmell) (il : Nat × List Char) : List CodeSmell :=
  let sl2 :=
    match shortDefMatch il.2 with
    | some w => sl ++ [CodeSmell.mk "short_name" (il.1 + 1)
        ("Tên hàm quá ngắn: " ++ String.mk w) "low"]
    | none => sl
  match shortClassMatch il.2 with
  | some w => sl2 ++ [CodeSmell.mk "short_name" (il.1 + 1)
      ("Tên lớp quá ngắn: " ++ String.mk w) "low"]
  | none => sl2

/-- Embeds detect_code_smells (src/ultis.py, lines 325-442). -/
def detect_code_smells (content : String) : List CodeSmell :=
  if content = "" then []
  else
    let lines := pySplitlines content
    let acc := lines.enum.foldl smellStep (SmellAcc.mk [] [] 0 0 false)
    let smells1 := if acc.inFunction ∧ 50 < acc.functionLines then
        acc.smells ++ [CodeSmell.mk "long_function" (acc.functionStartLine + 1)
          ("Hàm " ++ String.mk acc.currentFunction ++ " quá dài (" ++
            toString acc.functionLines ++ " dòng)") "medium"]
      else acc.smells
    lines.enum.foldl shortNameStep smells1

/-- Non-decreasing line numbers along a smell list (the order the claim
asserts). -/
def smellsSortedByLine : List CodeSmell → Bool
  | [] => true
  | [_] => true
  | a :: b :: t => decide (a.line ≤ b.line) && smellsSortedByLine (b :: t)

-- ----- identify_code_language, snapshots, comparison -----

/-- Python dict.get(k, d) over an association list (first match wins;
dict keys are unique anyway). -/
def dictGetD {β : Type} (l : List (String × β)) (k : String) (d : β) : β :=
  match l with
  | [] => d
  | (k2, v) :: t => if k2 = k then v else dictGetD t k d

/-- Association-list lookup (none when the key is absent). -/
def dictLookup {β : Type} (l : List (String × β)) (k : String) : Option β :=
  match l with
  | [] => none
  | (k2, v) :: t => if k2 = k then some v else dictLookup t k

/-- The static extension → language table of identify_code_language. -/
def languageMap : List (String × String) :=
  [(".py", "Python"), (".js", "JavaScript"), (".html", "HTML"), (".css", "CSS"),
   (".java", "Java"), (".c", "C"), (".cpp", "C++"), (".h", "C/C++ Header"),
   (".cs", "C#"), (".go", "Go"), (".rb", "Ruby"), (".php", "PHP"),
   (".ts", "TypeScript"), (".jsx", "React JSX"), (".tsx", "React TSX"),
   (".md", "Markdown"), (".json", "JSON"), (".xml", "XML"), (".sql", "SQL"),
   (".sh", "Shell"), (".bat", "Batch"), (".ps1", "PowerShell")]

/-- os.path.basename with POSIX separators: the part after the last '/'. -/
def pyBasename (p : String) : String :=
  String.mk ((p.data.reverse.takeWhile (fun c => c ≠ '/')).reverse)

/-- The extension part of os.path.splitext: the suffix from the last '.' of
the basename, except when every character of the basename before that dot
is itself a dot (so dotfiles like ".bashrc" have no extension). -/
def pySplitextExt (p : String) : String :=
  let base := (pyBasename p).data
  let afterDot := base.reverse.takeWhile (fun c => c ≠ '.')
  if afterDot.length = base.length then ""
  else
    let nameLen := base.length - afterDot.length - 1
    if (base.take nameLen).all (fun c => c = '.') then ""
    else String.mk ('.' :: afterDot.reverse)

/-- Embeds identify_code_language (src/ultis.py, lines 606-644); the
content parameter of the source is unused by its body. -/
def identify_code_language (filename : String) : String :=
  dictGetD languageMap (String.mk ((pySplitextExt filename).data.map Char.toLower)) "Unknown"

/-- The metrics dict rendered as a generic key/value mapping, in the
source's insertion order, all values as rationals. -/
def CodeMetrics.toAssoc (m : CodeMetrics) : List (String × ℚ) :=
  [("total_lines", (m.total_lines : ℚ)), ("code_lines", (m.code_lines : ℚ)),
   ("comment_lines", (m.comment_lines : ℚ)), ("blank_lines", (m.blank_lines : ℚ)),
   ("docstring_lines", (m.docstring_lines : ℚ)),
   ("function_count", (m.function_count : ℚ)), ("class_count", (m.class_count : ℚ)),
   ("import_count", (m.import_count : ℚ)), ("todo_count", (m.todo_count : ℚ)),
   ("max_line_length", (m.max_line_length : ℚ)),
   ("avg_line_length", m.avg_line_length), ("comment_ratio", m.comment_ratio)]

/-- The snapshot dict create_snapshot builds. -/
structure Snapshot where
  file_path : String
  file_name : String
  timestamp : String
  file_modified : Option String
  hash : String
  language : String
  size : Int
  metrics : List (String × ℚ)
  content : String
  compressed_content : Option String
deriving DecidableEq

/-- Embeds create_snapshot (src/ultis.py, lines 1000-1047) on the
content-supplied path (with content=None the source first reads the file).
The ambient effects — zlib, the clock and the file mtime — are passed as
the explicit parameters zlibCompress, now and fileTime; the try/except
wrapper is not modelled because no operation in this body raises. -/
def create_snapshot (zlibCompress : List Nat → List Nat) (now : String)
    (fileTime : Option String) (file_path content : String) : Snapshot :=
  let language := identify_code_language file_path
  { file_path := file_path
    file_name := pyBasename file_path
    timestamp := now
    file_modified := fileTime
    hash := compute_file_hash content
    language := language
    size := (content.length : Int)
    metrics := if language ≠ "" then (count_code_metrics content).toAssoc else []
    content := content
    compressed_content := if content ≠ "" then
        some (bytesToHexStr (compress_content zlibCompress content)) else none }

/-- One per-metric delta entry {old, new, change}. -/
structure MetricChange where
  old : ℚ
  new : ℚ
  change : ℚ
deriving DecidableEq

/-- The report dict compare_snapshots builds. -/
structure ComparisonReport where
  file_path : String
  file_name : String
  old_timestamp : String
  new_timestamp : String
  old_hash : String
  new_hash : String
  is_significant : Bool
  diff : String
  metrics_changes : List (String × MetricChange)
  size_change : Int
deriving DecidableEq

/-- Embeds compare_snapshots (src/ultis.py, lines 1050-1106) on valid
(non-falsy) snapshots; the empty-input guard and the try/except wrapper
(no operation in this body raises on such snapshots) are outside the
modelled domain.  Python iterates set(old) | set(new), whose order is
unspecified; the key union is modelled by dedup of the concatenated key
lists — every claim about metrics_changes is a lookup statement, not an
order statement.  The significance threshold is the source default 0.05. -/
def compare_snapshots (old_snapshot new_snapshot : Snapshot) : ComparisonReport :=
  let old_content := old_snapshot.content
  let new_content := new_snapshot.content
  let keys := (old_snapshot.metrics.map Prod.fst ++
    new_snapshot.metrics.map Prod.fst).dedup
  { file_path := new_snapshot.file_path
    file_name := new_snapshot.file_name
    old_timestamp := old_snapshot.timestamp
    new_timestamp := new_snapshot.timestamp
    old_hash := old_snapshot.hash
    new_hash := new_snapshot.hash
    is_significant := is_significant_change old_content new_content (0.05 : ℚ)
    diff := generate_diff old_content new_content
    metrics_changes := keys.filterMap (fun k =>
      let old_value := dictGetD old_snapshot.metrics k 0
      let new_value := dictGetD new_snapshot.metrics k 0
      if old_value ≠ new_value then
        some (k, MetricChange.mk old_value new_value (new_value - old_value))
      else none)
    size_change := new_snapshot.size - old_snapshot.size }

-- ===================================================================
-- Theorems
-- ===================================================================

theorem length_flatMap_byteToHexChars (bs : List Nat) :
    (bs.flatMap byteToHexChars).length = 2 * bs.length := by
  induction bs with
  | nil => simp
  | cons b t ih => simp [byteToHexChars, ih]; omega

theorem isLowerHexDigit_hexDigitChar : ∀ n < 16, isLowerHexDigit (hexDigitChar n) = true := by
  decide

theorem md5Digest_length (msg : List Nat) : (md5Digest msg).length = 16 := by
  simp [md5Digest, toLEBytes4]

theorem toLEBytes4_lt (w : Nat) : ∀ b ∈ toLEBytes4 w, b < 256 := by
  intro b hb
  simp only [toLEBytes4, List.mem_cons, List.not_mem_nil, or_false] at hb
  rcases hb with h | h | h | h <;> subst h <;> exact Nat.mod_lt _ (by norm_num)

theorem md5Digest_bytes_lt (msg : List Nat) : ∀ b ∈ md5Digest msg, b < 256 := by
  intro b hb
  simp only [md5Digest, List.mem_append] at hb
  rcases hb with ((h | h) | h) | h <;> exact toLEBytes4_lt _ b h

theorem mem_flatMap_byteToHexChars {bs : List Nat} (hlt : ∀ b ∈ bs, b < 256) :
    ∀ c ∈ bs.flatMap byteToHexChars, isLowerHexDigit c = true := by
  intro c hc
  rw [List.mem_flatMap] at hc
  obtain ⟨b, hb, hcb⟩ := hc
  have hb256 := hlt b hb
  simp only [byteToHexChars, List.mem_cons, List.not_mem_nil, or_false] at hcb
  rcases hcb with h | h <;> subst h
  · exact isLowerHexDigit_hexDigitChar _ (by omega)
  · exact isLowerHexDigit_hexDigitChar _ (Nat.mod_lt _ (by norm_num))

/-- C10: compute_file_hash always returns a string of exactly 32 lowercase
hexadecimal characters (the hex rendering of the 16-byte MD5 digest of the
UTF-8 encoding of the input), and it is deterministic: equal inputs always
produce equal digests. -/
theorem compute_file_hash_shape (s : String) :
    (compute_file_hash s).length = 32 ∧
    (compute_file_hash s).data.all isLowerHexDigit = true ∧
    ∀ t : String, s = t → compute_file_hash s = compute_file_hash t := by
  refine ⟨?_, ?_, ?_⟩
  · have h : (compute_file_hash s).length =
        ((md5Digest (utf8Encode s.data)).flatMap byteToHexChars).length := rfl
    rw [h, length_flatMap_byteToHexChars, md5Digest_length]
  · rw [List.all_eq_true]
    exact fun c hc =>
      mem_flatMap_byteToHexChars (md5Digest_bytes_lt _) c hc
  · intro t ht; rw [ht]

/-- Witness for compute_file_hash_shape at the concrete input "abc". -/
theorem compute_file_hash_shape_witness :
    (compute_file_hash "abc").length = 32 ∧
    (compute_file_hash "abc").data.all isLowerHexDigit = true ∧
    compute_file_hash "abc" = compute_file_hash "abc" := by
  have h := compute_file_hash_shape "abc"
  exact ⟨h.1, h.2.1, h.2.2 "abc" rfl⟩

theorem char_toNat_bounds (c : Char) :
    c.toNat < 1114112 ∧ (c.toNat < 55296 ∨ 57344 ≤ c.toNat) := by
  rcases c.valid with h | ⟨h1, h2⟩
  · have h' : c.toNat < (55296 : Nat) := h
    exact ⟨by omega, Or.inl h'⟩
  · have h1' : (57343 : Nat) < c.toNat := h1
    have h2' : c.toNat < (1114112 : Nat) := h2
    exact ⟨h2', Or.inr (by omega)⟩

theorem utf8DecodeAux_encodeChar (c : Char) (rest : List Nat) (fuel : Nat) :
    utf8DecodeAux (fuel+1) (utf8EncodeChar c ++ rest) =
      (utf8DecodeAux fuel rest).map (fun cs => c :: cs) := by
  obtain ⟨hmax, hsur⟩ := char_toNat_bounds c
  by_cases h1 : c.toNat < 128
  · rw [show utf8EncodeChar c = [c.toNat] by rw [utf8EncodeChar]; simp [h1]]
    simp only [List.append_eq, List.cons_append, List.nil_append, utf8DecodeAux]
    rw [if_pos h1, Char.ofNat_toNat]
  by_cases h2 : c.toNat < 2048
  · rw [show utf8EncodeChar c = [192 + c.toNat / 64, 128 + c.toNat % 64] by
      rw [utf8EncodeChar]; simp [h1, h2]]
    simp only [List.append_eq, List.cons_append, List.nil_append, utf8DecodeAux]
    rw [if_neg (by omega), if_neg (by omega), if_pos (by omega)]
    rw [if_pos (by omega)]
    have hv : (192 + c.toNat / 64 - 192) * 64 + (128 + c.toNat % 64 - 128) = c.toNat := by
      omega
    rw [hv, Char.ofNat_toNat]
  by_cases h3 : c.toNat < 65536
  · rw [show utf8EncodeChar c =
        [224 + c.toNat / 4096, 128 + c.toNat / 64 % 64, 128 + c.toNat % 64] by
      rw [utf8EncodeChar]; simp [h1, h2, h3]]
    simp only [List.append_eq, List.cons_append, List.nil_append, utf8DecodeAux]
    rw [if_neg (by omega), if_neg (by omega), if_neg (by omega), if_pos (by omega)]
    rw [if_pos (by refine ⟨by omega, by omega, ?_, ?_⟩ <;> omega)]
    have hv : (224 + c.toNat / 4096 - 224) * 4096 + (128 + c.toNat / 64 % 64 - 128) * 64 +
        (128 + c.toNat % 64 - 128) = c.toNat := by omega
    rw [hv, Char.ofNat_toNat]
  · rw [show utf8EncodeChar c =
        [240 + c.toNat / 262144, 128 + c.toNat / 4096 % 64, 128 + c.toNat / 64 % 64,
          128 + c.toNat % 64] by
      rw [utf8EncodeChar]; simp [h1, h2, h3]]
    simp only [List.append_eq, List.cons_append, List.nil_append, utf8DecodeAux]
    rw [if_neg (by omega), if_neg (by omega), if_neg (by omega), if_neg (by omega),
      if_pos (by omega)]
    rw [if_pos (by refine ⟨by omega, by omega, by omega, ?_, ?_⟩ <;> omega)]
    have hv : (240 + c.toNat / 262144 - 240) * 262144 + (128 + c.toNat / 4096 % 64 - 128) * 4096 +
        (128 + c.toNat / 64 % 64 - 128) * 64 + (128 + c.toNat % 64 - 128) = c.toNat := by omega
    rw [hv, Char.ofNat_toNat]

theorem utf8DecodeAux_nil (fuel : Nat) : utf8DecodeAux fuel [] = some [] := by
  cases fuel <;> rfl

theorem utf8DecodeAux_encode (cs : List Char) :
    ∀ fuel, cs.length ≤ fuel → utf8DecodeAux fuel (utf8Encode cs) = some cs := by
  induction cs with
  | nil => intro fuel _; exact utf8DecodeAux_nil fuel
  | cons c t ih =>
    intro fuel hf
    cases fuel with
    | zero => simp only [List.length_cons] at hf; omega
    | succ f =>
      have ht : t.length ≤ f := by simp only [List.length_cons] at hf; omega
      rw [show utf8Encode (c :: t) = utf8EncodeChar c ++ utf8Encode t from rfl]
      rw [utf8DecodeAux_encodeChar, ih f ht]
      rfl

theorem length_le_utf8Encode_length (cs : List Char) :
    cs.length ≤ (utf8Encode cs).length := by
  induction cs with
  | nil => simp [utf8Encode]
  | cons c t ih =>
    have h : 1 ≤ (utf8EncodeChar c).length := by
      rw [utf8EncodeChar]
      by_cases h1 : c.toNat < 128
      · simp [h1]
      by_cases h2 : c.toNat < 2048
      · simp [h1, h2]
      by_cases h3 : c.toNat < 65536
      · simp [h1, h2, h3]
      · simp [h1, h2, h3]
    rw [show utf8Encode (c :: t) = utf8EncodeChar c ++ utf8Encode t from rfl]
    rw [List.length_append, List.length_cons]
    omega

theorem utf8Decode_encode (cs : List Char) : utf8Decode (utf8Encode cs) = some cs :=
  utf8DecodeAux_encode cs _ (length_le_utf8Encode_length cs)

/-- C2: the content codec round-trips: for every string s (a sequence of
Unicode scalar values), including the empty string and strings with
multi-byte UTF-8 characters, decompress_content (compress_content s) = s,
given zlib's documented lossless compress/decompress contract. -/
theorem decompress_compress_round_trip
    (zlibCompress zlibDecompress : List Nat → List Nat)
    (hzlib : ∀ bs : List Nat, zlibDecompress (zlibCompress bs) = bs)
    (s : String) :
    decompress_content zlibDecompress (compress_content zlibCompress s) = some s := by
  unfold decompress_content compress_content
  rw [hzlib, utf8Decode_encode]
  cases s
  rfl

/-- Witness for decompress_compress_round_trip with the identity codec pair
(which satisfies the round-trip hypothesis) on a string mixing 1-, 2-, 3- and
4-byte UTF-8 characters. -/
theorem decompress_compress_round_trip_witness :
    (∀ bs : List Nat, id (id bs) = bs) ∧
    decompress_content id (compress_content id "aé€𝄞") = some "aé€𝄞" :=
  ⟨fun _ => rfl, decompress_compress_round_trip id id (fun _ => rfl) "aé€𝄞"⟩

theorem metricsStep_buckets (acc : MetricsAcc) (line : List Char) :
    (metricsStep acc line).blank + (metricsStep acc line).comment +
      (metricsStep acc line).docstring ≤ acc.blank + acc.comment + acc.docstring + 1 := by
  dsimp only [metricsStep]
  split_ifs <;> simp <;> omega

theorem metricsScan_buckets_le (ls : List (List Char)) (acc : MetricsAcc) :
    (ls.foldl metricsStep acc).blank + (ls.foldl metricsStep acc).comment +
      (ls.foldl metricsStep acc).docstring ≤
      acc.blank + acc.comment + acc.docstring + ls.length := by
  induction ls generalizing acc with
  | nil => simp
  | cons l t ih =>
    rw [List.foldl_cons, List.length_cons]
    have h1 := ih (metricsStep acc l)
    have h2 := metricsStep_buckets acc l
    omega

/-- C3: for every input text, the metrics dictionary satisfies
total_lines = code_lines + comment_lines + blank_lines + docstring_lines,
and each of the four counts is non-negative (the scanner buckets are
naturals, and code_lines, derived by subtraction as in the source, is shown
non-negative because each line lands in at most one bucket). -/
theorem count_code_metrics_invariant (content : String) :
    ((count_code_metrics content).total_lines : Int) =
      (count_code_metrics content).code_lines +
      (count_code_metrics content).comment_lines +
      (count_code_metrics content).blank_lines +
      (count_code_metrics content).docstring_lines ∧
    0 ≤ (count_code_metrics content).code_lines := by
  unfold count_code_metrics
  split_ifs with h
  · simp
  · have hle := metricsScan_buckets_le (pySplitlines content) metricsInit
    rw [show metricsInit.blank = 0 from rfl, show metricsInit.comment = 0 from rfl,
      show metricsInit.docstring = 0 from rfl] at hle
    dsimp only
    constructor
    · ring
    · omega

-- ----- C1: diff round trip -----

/-- C1 as stated is false at its own concrete instance: the generated diff
is correct, but replaying it yields the modified text WITHOUT the trailing
newline (apply_diff joins splitlines output with newlines), so the result
differs from new. -/
theorem diff_round_trip_counterexample :
    apply_diff "Line 1\nLine 2\nLine 3\n"
      (generate_diff "Line 1\nLine 2\nLine 3\n" "Line 1\nLine 2 modified\nLine 3\n") ≠
    Except.ok "Line 1\nLine 2 modified\nLine 3\n" := by
  rw [show apply_diff "Line 1\nLine 2\nLine 3\n"
      (generate_diff "Line 1\nLine 2\nLine 3\n" "Line 1\nLine 2 modified\nLine 3\n") =
      Except.ok "Line 1\nLine 2 modified\nLine 3" from rfl]
  intro h
  exact absurd (Except.ok.inj h) (by decide)

/-- C1 amended: at the concrete example the diff consists of exactly one
hunk containing "-Line 2" and "+Line 2 modified" (with one context line on
each side), and applying it to old reproduces new up to the trailing
newline — the replay returns new's lines joined by newlines. -/
theorem diff_round_trip_modulo_trailing_newline :
    generate_diff "Line 1\nLine 2\nLine 3\n" "Line 1\nLine 2 modified\nLine 3\n" =
      "--- previous\n+++ current\n@@ -1,3 +1,3 @@\n Line 1\n-Line 2\n+Line 2 modified\n Line 3" ∧
    apply_diff "Line 1\nLine 2\nLine 3\n"
      (generate_diff "Line 1\nLine 2\nLine 3\n" "Line 1\nLine 2 modified\nLine 3\n") =
      Except.ok "Line 1\nLine 2 modified\nLine 3" :=
  ⟨by decide, by rfl⟩

-- ----- C9: apply_diff totality -----

/-- C9: apply_diff is not total.  A hunk header whose new-file start is 0
(difflib emits "+0,0" whenever the new side of a hunk is empty) sets the
cursor to -1; a subsequent removed line then passes the `line_idx <
len(result_lines)` guard (because -1 < 0) and evaluates result_lines[-1]
on an empty list, which raises IndexError.  Evaluating the embedding at
that input yields exactly this error. -/
theorem apply_diff_raises_indexError :
    apply_diff "" "--- previous\n+++ current\n@@ -1,1 +0,0 @@\n-a" =
      Except.error PyErr.indexError := by rfl

-- ----- C6: magic-number smell -----

/-- C6: the magic_number regex `[^\w]\d{3,}[^\w]` requires a non-word
CHARACTER after the digits, and the end of the line provides none, so
"x = 12345\n" produces no smell at all — contradicting the claim; adding
one trailing space restores the single magic_number smell at line 1 with
severity low. -/
theorem detect_code_smells_magic_number_eval :
    detect_code_smells "x = 12345\n" = [] ∧
    detect_code_smells "x = 12345 \n" =
      [CodeSmell.mk "magic_number" 1 "Sử dụng magic number" "low"] :=
  ⟨by decide, by decide⟩

-- ----- C7: smell ordering -----

/-- C7 as stated is false: the returned list is not sorted by line.  The
input "def ab(x):\n    global y\n" yields the main-pass global_variable
record (line 2) followed by the second-pass short_name record (line 1). -/
theorem smells_not_sorted_counterexample :
    smellsSortedByLine (detect_code_smells "def ab(x):\n    global y\n") = false := by
  decide

/-- C7 amended: the detector emits records pass by pass — the main per-line
pass appends records as it scans (long_function carrying a finished
function's start line), then a second pass appends all short_name records —
and no record is deduplicated or suppressed; consequently the list is not
in general sorted by its line field.  At the concrete input above the full
output is exactly these two records in this order. -/
theorem smells_pass_order_eval :
    detect_code_smells "def ab(x):\n    global y\n" =
      [CodeSmell.mk "global_variable" 2 "Sử dụng biến toàn cục" "medium",
       CodeSmell.mk "short_name" 1 "Tên hàm quá ngắn: ab" "low"] := by
  decide

-- ----- C8: language-gated metrics -----

theorem dictGetD_mem_or_default {β : Type} (l : List (String × β)) (k : String) (d : β) :
    dictGetD l k d = d ∨ ∃ p ∈ l, dictGetD l k d = p.2 := by
  induction l with
  | nil => exact Or.inl rfl
  | cons h t ih =>
    rw [dictGetD]
    split_ifs with hk
    · exact Or.inr ⟨h, List.mem_cons_self h t, rfl⟩
    · rcases ih with h1 | ⟨p, hp, he⟩
      · exact Or.inl h1
      · exact Or.inr ⟨p, List.mem_cons_of_mem _ hp, he⟩

theorem identify_code_language_ne_empty (filename : String) :
    identify_code_language filename ≠ "" := by
  unfold identify_code_language
  rcases dictGetD_mem_or_default languageMap
      (String.mk ((pySplitextExt filename).data.map Char.toLower)) "Unknown" with h | ⟨p, hp, he⟩
  · rw [h]; decide
  · rw [he]
    have hall : ∀ p ∈ languageMap, p.2 ≠ "" := by decide
    exact hall p hp

/-- C8 amended: create_snapshot derives the snapshot's language from the
path's extension via the static lookup table (default "Unknown"), but the
gate `if language` never blocks the analyzer: identify_code_language always
returns a non-empty — hence truthy — string, so metrics equals
count_code_metrics(content) for every path, recognized extension or not. -/
theorem create_snapshot_language_and_metrics (zc : List Nat → List Nat)
    (now : String) (ft : Option String) (file_path content : String) :
    (create_snapshot zc now ft file_path content).language =
      dictGetD languageMap
        (String.mk ((pySplitextExt file_path).data.map Char.toLower)) "Unknown" ∧
    (create_snapshot zc now ft file_path content).metrics =
      (count_code_metrics content).toAssoc := by
  refine ⟨rfl, ?_⟩
  show (if identify_code_language file_path ≠ "" then
      (count_code_metrics content).toAssoc else []) = (count_code_metrics content).toAssoc
  rw [if_pos (identify_code_language_ne_empty file_path)]

/-- C8 as stated is false: for the unrecognized extension ".xyz" the
language is the truthy string "Unknown", so the snapshot's metrics is the
fully computed dictionary (here total_lines = 1), not empty/zeroed. -/
theorem create_snapshot_unrecognized_metrics_counterexample :
    (create_snapshot id "t" none "file.xyz" "x = 1\n").language = "Unknown" ∧
    dictGetD (create_snapshot id "t" none "file.xyz" "x = 1\n").metrics "total_lines" 0 = 1 ∧
    (create_snapshot id "t" none "file.xyz" "x = 1\n").metrics ≠ [] := by
  refine ⟨by decide, ?_, ?_⟩
  · rfl
  · show (if identify_code_language "file.xyz" ≠ "" then
        (count_code_metrics "x = 1\n").toAssoc else []) ≠ []
    rw [if_pos (identify_code_language_ne_empty "file.xyz")]
    simp [CodeMetrics.toAssoc]

-- ----- C5: comparison metrics delta -----

theorem dictLookup_filterMap_not_mem {β : Type} (g : String → Option (String × β))
    (hg : ∀ x p, g x = some p → p.1 = x) (keys : List String) (k : String)
    (hk : k ∉ keys) : dictLookup (keys.filterMap g) k = none := by
  induction keys with
  | nil => rfl
  | cons h t ih =>
    simp only [List.mem_cons, not_or] at hk
    rw [List.filterMap_cons]
    cases hgh : g h with
    | none => exact ih hk.2
    | some p =>
      rw [dictLookup, if_neg (by rw [hg h p hgh]; exact fun he => hk.1 he.symm)]
      exact ih hk.2

theorem dictLookup_filterMap_mem {β : Type} (g : String → Option (String × β))
    (hg : ∀ x p, g x = some p → p.1 = x) (keys : List String) (hnd : keys.Nodup)
    (k : String) (hk : k ∈ keys) :
    dictLookup (keys.filterMap g) k = (g k).map Prod.snd := by
  induction keys with
  | nil => cases hk
  | cons h t ih =>
    rw [List.filterMap_cons]
    rcases List.mem_cons.mp hk with rfl | hkt
    · cases hgh : g k with
      | none =>
        rw [dictLookup_filterMap_not_mem g hg t k (List.nodup_cons.mp hnd).1]
        rfl
      | some p =>
        rw [dictLookup, if_pos (hg k p hgh)]
        rfl
    · have hne : h ≠ k := fun he => (List.nodup_cons.mp hnd).1 (he ▸ hkt)
      cases hgh : g h with
      | none => exact ih (List.nodup_cons.mp hnd).2 hkt
      | some p =>
        rw [dictLookup, if_neg (by rw [hg h p hgh]; exact hne)]
        exact ih (List.nodup_cons.mp hnd).2 hkt

/-- C5 amended: for every two valid snapshots and every metric key present
in either snapshot's metrics (a side missing the key defaulting to 0),
metrics_changes has the entry {old, new, change = new - old} exactly when
the two values differ — a key whose two values are equal is omitted rather
than recorded with change 0 — and size_change = new.size - old.size. -/
theorem compare_snapshots_metrics_delta (o n : Snapshot) (k : String)
    (hk : k ∈ o.metrics.map Prod.fst ∨ k ∈ n.metrics.map Prod.fst) :
    (dictGetD o.metrics k 0 ≠ dictGetD n.metrics k 0 →
      dictLookup (compare_snapshots o n).metrics_changes k =
        some (MetricChange.mk (dictGetD o.metrics k 0) (dictGetD n.metrics k 0)
          (dictGetD n.metrics k 0 - dictGetD o.metrics k 0))) ∧
    (dictGetD o.metrics k 0 = dictGetD n.metrics k 0 →
      dictLookup (compare_snapshots o n).metrics_changes k = none) ∧
    (compare_snapshots o n).size_change = n.size - o.size := by
  have hkeys : k ∈ (o.metrics.map Prod.fst ++ n.metrics.map Prod.fst).dedup := by
    rw [List.mem_dedup, List.mem_append]; exact hk
  have hnd := List.nodup_dedup (o.metrics.map Prod.fst ++ n.metrics.map Prod.fst)
  have hg : ∀ x p, (fun k2 =>
      if dictGetD o.metrics k2 0 ≠ dictGetD n.metrics k2 0 then
        some (k2, MetricChange.mk (dictGetD o.metrics k2 0) (dictGetD n.metrics k2 0)
          (dictGetD n.metrics k2 0 - dictGetD o.metrics k2 0))
      else none) x = some p → p.1 = x := by
    intro x p hp
    have hp2 : (if dictGetD o.metrics x 0 ≠ dictGetD n.metrics x 0 then
        some (x, MetricChange.mk (dictGetD o.metrics x 0) (dictGetD n.metrics x 0)
          (dictGetD n.metrics x 0 - dictGetD o.metrics x 0))
      else none) = some p := hp
    by_cases h : dictGetD o.metrics x 0 ≠ dictGetD n.metrics x 0
    · rw [if_pos h] at hp2
      cases Option.some.inj hp2
      rfl
    · rw [if_neg h] at hp2
      cases hp2
  have hmain := dictLookup_filterMap_mem _ hg _ hnd k hkeys
  have hmain2 : dictLookup (compare_snapshots o n).metrics_changes k =
      (if dictGetD o.metrics k 0 ≠ dictGetD n.metrics k 0 then
        some (k, MetricChange.mk (dictGetD o.metrics k 0) (dictGetD n.metrics k 0)
          (dictGetD n.metrics k 0 - dictGetD o.metrics k 0))
      else none).map Prod.snd := hmain
  refine ⟨?_, ?_, rfl⟩
  · intro hne
    rw [hmain2, if_pos hne]
    rfl
  · intro heq
    rw [hmain2, if_neg (not_not_intro heq)]
    rfl

/-- Witness for compare_snapshots_metrics_delta on two concrete snapshots
sharing the key total_lines with values 3 and 5. -/
theorem compare_snapshots_metrics_delta_witness :
    (dictGetD [(("total_lines" : String), (3 : ℚ))] "total_lines" 0 ≠
        dictGetD [(("total_lines" : String), (5 : ℚ))] "total_lines" 0 →
      dictLookup (compare_snapshots
        (Snapshot.mk "a.py" "a.py" "t1" none "h1" "Python" 1 [("total_lines", 3)] "" none)
        (Snapshot.mk "a.py" "a.py" "t2" none "h2" "Python" 4 [("total_lines", 5)] "" none)).metrics_changes
        "total_lines" =
      some (MetricChange.mk (dictGetD [(("total_lines" : String), (3 : ℚ))] "total_lines" 0)
        (dictGetD [(("total_lines" : String), (5 : ℚ))] "total_lines" 0)
        (dictGetD [(("total_lines" : String), (5 : ℚ))] "total_lines" 0 -
         dictGetD [(("total_lines" : String), (3 : ℚ))] "total_lines" 0))) ∧
    (compare_snapshots
      (Snapshot.mk "a.py" "a.py" "t1" none "h1" "Python" 1 [("total_lines", 3)] "" none)
      (Snapshot.mk "a.py" "a.py" "t2" none "h2" "Python" 4 [("total_lines", 5)] "" none)).size_change =
      (4 : Int) - 1 := by
  have h := compare_snapshots_metrics_delta
    (Snapshot.mk "a.py" "a.py" "t1" none "h1" "Python" 1 [("total_lines", 3)] "" none)
    (Snapshot.mk "a.py" "a.py" "t2" none "h2" "Python" 4 [("total_lines", 5)] "" none)
    "total_lines" (Or.inl (by decide))
  exact ⟨h.1, h.2.2⟩

/-- C5 as stated is false: a metric key present in both snapshots with
EQUAL values produces no metrics_changes entry (the source only records
keys whose values differ), so the claimed entry for every key present in
either snapshot is absent here. -/
theorem compare_snapshots_unchanged_key_counterexample :
    dictLookup (compare_snapshots
      (Snapshot.mk "a.py" "a.py" "t1" none "h1" "Python" 0 [("total_lines", 3)] "" none)
      (Snapshot.mk "a.py" "a.py" "t2" none "h2" "Python" 0 [("total_lines", 3)] "" none)).metrics_changes
      "total_lines" = none := by
  rfl

-- ----- C4: similarity of identical sequences -----

section SelfMatch

variable {α : Type} [DecidableEq α] [Inhabited α]

theorem mem_positionsFrom {x : α} :
    ∀ (l : List α) (i j : Nat),
      j ∈ positionsFrom x l i ↔
        i ≤ j ∧ j - i < l.length ∧ l.getD (j - i) default = x := by
  intro l
  induction l with
  | nil => intro i j; simp [positionsFrom]
  | cons y t ih =>
    intro i j
    rw [positionsFrom]
    split_ifs with hy
    · rw [List.mem_cons, ih (i+1) j]
      constructor
      · rintro (rfl | ⟨h1, h2, h3⟩)
        · exact ⟨le_refl _, by simp, by simpa using hy⟩
        · refine ⟨by omega, by simp only [List.length_cons]; omega, ?_⟩
          rw [show j - i = (j - (i+1)) + 1 by omega]
          simpa using h3
      · rintro ⟨h1, h2, h3⟩
        by_cases hj : j = i
        · exact Or.inl hj
        · refine Or.inr ⟨by omega, by simp only [List.length_cons] at h2; omega, ?_⟩
          rw [show j - (i+1) = j - i - 1 by omega]
          rw [show j - i = (j - i - 1) + 1 by omega] at h3
          simpa using h3
    · rw [ih (i+1) j]
      constructor
      · rintro ⟨h1, h2, h3⟩
        refine ⟨by omega, by simp only [List.length_cons]; omega, ?_⟩
        rw [show j - i = (j - (i+1)) + 1 by omega]
        simpa using h3
      · rintro ⟨h1, h2, h3⟩
        have hj : j ≠ i := by
          rintro rfl
          rw [show j - j = 0 by omega] at h3
          simp only [List.getD_cons_zero] at h3
          exact hy h3
        refine ⟨by omega, by simp only [List.length_cons] at h2; omega, ?_⟩
        rw [show j - (i+1) = j - i - 1 by omega]
        rw [show j - i = (j - i - 1) + 1 by omega] at h3
        simpa using h3

theorem positionsFrom_pairwise {x : α} :
    ∀ (l : List α) (i : Nat), List.Pairwise (· < ·) (positionsFrom x l i) := by
  intro l
  induction l with
  | nil => intro i; simp [positionsFrom]
  | cons y t ih =>
    intro i
    rw [positionsFrom]
    split_ifs with hy
    · refine List.Pairwise.cons ?_ (ih (i+1))
      intro j hj
      have := (mem_positionsFrom t (i+1) j).mp hj
      omega
    · exact ih (i+1)

theorem mem_b2jGet {s : List α} {x : α} {j : Nat} :
    j ∈ b2jGet s x ↔
      isPopular s x = false ∧ j < s.length ∧ s.getD j default = x := by
  rw [b2jGet]
  split_ifs with hp
  · simp [hp]
  · rw [mem_positionsFrom]
    have hp2 : isPopular s x = false := by
      cases h2 : isPopular s x
      · rfl
      · exact absurd h2 hp
    simp only [hp2, Nat.sub_zero, Nat.zero_le, true_and]

theorem b2jGet_pairwise (s : List α) (x : α) :
    List.Pairwise (· < ·) (b2jGet s x) := by
  rw [b2jGet]
  split_ifs
  · simp
  · exact positionsFrom_pairwise s 0

theorem mdp_eq_zero_of_not_cond {s : List α} {i j : Nat}
    (h : ¬(s.getD j default = s.getD i default ∧
      isPopular s (s.getD i default) = false ∧ j < s.length)) : mdp s i j = 0 := by
  cases i with
  | zero => simp only [mdp]; rw [if_neg h]
  | succ i2 => simp only [mdp]; rw [if_neg h]

theorem mdp_pos_cond {s : List α} {i j : Nat} (h : 0 < mdp s i j) :
    s.getD j default = s.getD i default ∧
      isPopular s (s.getD i default) = false ∧ j < s.length := by
  by_contra hc
  rw [mdp_eq_zero_of_not_cond hc] at h
  exact absurd h (lt_irrefl 0)

theorem mdp_zero_row {s : List α} {j : Nat}
    (h : s.getD j default = s.getD 0 default ∧
      isPopular s (s.getD 0 default) = false ∧ j < s.length) : mdp s 0 j = 1 := by
  simp only [mdp]; rw [if_pos h]

theorem mdp_succ_zero {s : List α} {i2 : Nat}
    (h : s.getD 0 default = s.getD (i2+1) default ∧
      isPopular s (s.getD (i2+1) default) = false ∧ 0 < s.length) :
    mdp s (i2+1) 0 = 1 := by
  simp only [mdp]; rw [if_pos h]

theorem mdp_succ_succ {s : List α} {i2 j2 : Nat}
    (h : s.getD (j2+1) default = s.getD (i2+1) default ∧
      isPopular s (s.getD (i2+1) default) = false ∧ j2+1 < s.length) :
    mdp s (i2+1) (j2+1) = mdp s i2 j2 + 1 := by
  simp only [mdp]; rw [if_pos h]

theorem mdp_diag_pos {s : List α} {i : Nat} (hi : i < s.length)
    (hp : isPopular s (s.getD i default) = false) : 1 ≤ mdp s i i := by
  cases i with
  | zero => rw [mdp_zero_row ⟨rfl, hp, hi⟩]
  | succ i2 => rw [mdp_succ_succ ⟨rfl, hp, hi⟩]; omega

theorem mdp_le_row_succ {s : List α} : ∀ i j, mdp s i j ≤ i + 1 := by
  intro i
  induction i with
  | zero =>
    intro j
    by_cases h : s.getD j default = s.getD 0 default ∧
        isPopular s (s.getD 0 default) = false ∧ j < s.length
    · rw [mdp_zero_row h]
    · rw [mdp_eq_zero_of_not_cond h]; omega
  | succ i2 ih =>
    intro j
    by_cases h : s.getD j default = s.getD (i2+1) default ∧
        isPopular s (s.getD (i2+1) default) = false ∧ j < s.length
    · cases j with
      | zero => rw [mdp_succ_zero h]; omega
      | succ j2 => rw [mdp_succ_succ h]; have := ih j2; omega
    · rw [mdp_eq_zero_of_not_cond h]; omega

theorem mdp_le_diag_row {s : List α} :
    ∀ i j, i < s.length → mdp s i j ≤ mdp s i i := by
  intro i
  induction i with
  | zero =>
    intro j hi
    by_cases h : s.getD j default = s.getD 0 default ∧
        isPopular s (s.getD 0 default) = false ∧ j < s.length
    · rw [mdp_zero_row h, mdp_zero_row ⟨rfl, h.2.1, hi⟩]
    · rw [mdp_eq_zero_of_not_cond h]; omega
  | succ i2 ih =>
    intro j hi
    by_cases h : s.getD j default = s.getD (i2+1) default ∧
        isPopular s (s.getD (i2+1) default) = false ∧ j < s.length
    · rw [mdp_succ_succ ⟨rfl, h.2.1, hi⟩]
      cases j with
      | zero => rw [mdp_succ_zero h]; omega
      | succ j2 =>
        rw [mdp_succ_succ h]
        have := ih j2 (by omega)
        omega
    · rw [mdp_eq_zero_of_not_cond h]; omega

theorem mdp_le_diag_col {s : List α} :
    ∀ i j, mdp s i j ≤ mdp s j j := by
  intro i
  induction i with
  | zero =>
    intro j
    by_cases h : s.getD j default = s.getD 0 default ∧
        isPopular s (s.getD 0 default) = false ∧ j < s.length
    · rw [mdp_zero_row h]
      exact mdp_diag_pos h.2.2 (by rw [h.1]; exact h.2.1)
    · rw [mdp_eq_zero_of_not_cond h]; omega
  | succ i2 ih =>
    intro j
    by_cases h : s.getD j default = s.getD (i2+1) default ∧
        isPopular s (s.getD (i2+1) default) = false ∧ j < s.length
    · cases j with
      | zero =>
        rw [mdp_succ_zero h]
        exact mdp_diag_pos h.2.2 (by rw [h.1]; exact h.2.1)
      | succ j2 =>
        rw [mdp_succ_succ h,
          mdp_succ_succ ⟨rfl, by rw [h.1]; exact h.2.1, h.2.2⟩]
        have := ih j2
        omega
    · rw [mdp_eq_zero_of_not_cond h]; omega

end SelfMatch

section SelfMatch2

variable {α : Type} [DecidableEq α] [Inhabited α]

theorem dp_k_eq_mdp (s : List α) (i j : Nat) (j2len : Nat → Nat)
    (hj2 : ∀ x, j2len x = prevRow s i x)
    (hcond : s.getD j default = s.getD i default ∧
      isPopular s (s.getD i default) = false ∧ j < s.length) :
    (if j = 0 then 0 else j2len (j - 1)) + 1 = mdp s i j := by
  revert hj2 hcond
  cases i with
  | zero =>
    intro hj2 hcond
    cases j with
    | zero => rw [if_pos rfl, mdp_zero_row hcond]
    | succ j2 =>
      rw [if_neg (Nat.succ_ne_zero j2), show j2 + 1 - 1 = j2 from rfl, hj2 j2,
        show prevRow s 0 j2 = 0 from rfl, mdp_zero_row hcond]
  | succ i2 =>
    intro hj2 hcond
    cases j with
    | zero => rw [if_pos rfl, mdp_succ_zero hcond]
    | succ j2 =>
      rw [if_neg (Nat.succ_ne_zero j2), show j2 + 1 - 1 = j2 from rfl, hj2 j2,
        show prevRow s (i2+1) j2 = mdp s i2 j2 from rfl, mdp_succ_succ hcond]

theorem dpInner_self (s : List α) (i : Nat) (hi : i < s.length) (j2len : Nat → Nat)
    (hj2 : ∀ x, j2len x = prevRow s i x) :
    ∀ (S : List Nat) (newj : Nat → Nat) (best : DPBest),
      (∀ j ∈ S, s.getD j default = s.getD i default ∧
        isPopular s (s.getD i default) = false ∧ j < s.length) →
      List.Pairwise (· < ·) S →
      (∀ x, newj x = if x ∈ S then 0 else mdp s i x) →
      best.i = best.j →
      best.i + best.size ≤ s.length →
      (∀ r, r < i → mdp s r r ≤ best.size) →
      (i ∈ S ∨ mdp s i i ≤ best.size) →
      (∀ x, (dpInner j2len 0 s.length i S newj best).1 x = mdp s i x) ∧
      (dpInner j2len 0 s.length i S newj best).2.i =
        (dpInner j2len 0 s.length i S newj best).2.j ∧
      (dpInner j2len 0 s.length i S newj best).2.i +
        (dpInner j2len 0 s.length i S newj best).2.size ≤ s.length ∧
      (∀ r, r < i → mdp s r r ≤ (dpInner j2len 0 s.length i S newj best).2.size) ∧
      mdp s i i ≤ (dpInner j2len 0 s.length i S newj best).2.size := by
  intro S
  induction S with
  | nil =>
    intro newj best hS hSp hnewj hb1 hb2 hb3 hb4
    simp only [dpInner]
    refine ⟨?_, hb1, hb2, hb3, ?_⟩
    · intro x
      have := hnewj x
      simpa using this
    · rcases hb4 with h | h
      · cases h
      · exact h
  | cons j S2 ih =>
    intro newj best hS hSp hnewj hb1 hb2 hb3 hb4
    obtain ⟨hcondj, hSrest⟩ : (s.getD j default = s.getD i default ∧
        isPopular s (s.getD i default) = false ∧ j < s.length) ∧
        (∀ j2 ∈ S2, s.getD j2 default = s.getD i default ∧
          isPopular s (s.getD i default) = false ∧ j2 < s.length) :=
      ⟨hS j (List.mem_cons_self j S2), fun j2 hj2m => hS j2 (List.mem_cons_of_mem j hj2m)⟩
    have hSp2 : List.Pairwise (· < ·) S2 := (List.pairwise_cons.mp hSp).2
    have hjlt : ∀ j2 ∈ S2, j < j2 := (List.pairwise_cons.mp hSp).1
    simp only [dpInner]
    rw [if_neg (Nat.not_lt_zero j), if_neg (by omega : ¬ s.length ≤ j)]
    have hk : (if j = 0 then 0 else j2len (j - 1)) + 1 = mdp s i j :=
      dp_k_eq_mdp s i j j2len hj2 hcondj
    by_cases hupd : best.size < (if j = 0 then 0 else j2len (j - 1)) + 1
    · -- an update happens: it must be on the diagonal, j = i
      have hji : j = i := by
        rcases Nat.lt_trichotomy j i with hlt | heq | hgt
        · exfalso
          have h1 : mdp s i j ≤ mdp s j j := mdp_le_diag_col i j
          have h2 : mdp s j j ≤ best.size := hb3 j hlt
          omega
        · exact heq
        · exfalso
          have hiS : i ∉ (j :: S2) := by
            intro hmem
            rcases List.mem_cons.mp hmem with rfl | hmem2
            · omega
            · exact absurd hgt (by have := hjlt i hmem2; omega)
          have h3 : mdp s i i ≤ best.size := hb4.resolve_left hiS
          have h4 : mdp s i j ≤ mdp s i i := mdp_le_diag_row i j hi
          omega
      rw [if_pos hupd]
      subst hji
      refine ih _ _ hSrest hSp2 ?_ rfl ?_ ?_ ?_
      · intro x
        by_cases hx : x = j
        · subst hx
          have hxnot : x ∉ S2 := fun hmem => absurd (hjlt x hmem) (lt_irrefl x)
          rw [if_pos rfl, if_neg hxnot]
          exact hk
        · rw [if_neg hx, hnewj x]
          by_cases hxs : x ∈ S2
          · rw [if_pos (List.mem_cons_of_mem j hxs), if_pos hxs]
          · have hxnot2 : ¬ x ∈ j :: S2 := by
              intro hmem
              rcases List.mem_cons.mp hmem with h | h
              · exact hx h
              · exact hxs h
            rw [if_neg hxnot2, if_neg hxs]
      · show j + 1 - ((if j = 0 then 0 else j2len (j - 1)) + 1) +
          ((if j = 0 then 0 else j2len (j - 1)) + 1) ≤ s.length
        have hklej : (if j = 0 then 0 else j2len (j - 1)) + 1 ≤ j + 1 := by
          rw [hk]; exact mdp_le_row_succ j j
        omega
      · intro r hr
        show mdp s r r ≤ (if j = 0 then 0 else j2len (j - 1)) + 1
        have := hb3 r hr
        omega
      · right
        show mdp s j j ≤ (if j = 0 then 0 else j2len (j - 1)) + 1
        rw [hk]
    · -- no update
      rw [if_neg hupd]
      refine ih _ _ hSrest hSp2 ?_ hb1 hb2 hb3 ?_
      · intro x
        by_cases hx : x = j
        · subst hx
          have hxnot : x ∉ S2 := fun hmem => absurd (hjlt x hmem) (lt_irrefl x)
          rw [if_pos rfl, if_neg hxnot]
          exact hk
        · rw [if_neg hx, hnewj x]
          by_cases hxs : x ∈ S2
          · rw [if_pos (List.mem_cons_of_mem j hxs), if_pos hxs]
          · have hxnot2 : ¬ x ∈ j :: S2 := by
              intro hmem
              rcases List.mem_cons.mp hmem with h | h
              · exact hx h
              · exact hxs h
            rw [if_neg hxnot2, if_neg hxs]
      · rcases hb4 with hmem | hle
        · rcases List.mem_cons.mp hmem with rfl | hmem2
          · right
            rw [← hk]
            omega
          · left
            exact hmem2
        · right
          exact hle

end SelfMatch2

section SelfMatch3

variable {α : Type} [DecidableEq α] [Inhabited α]

theorem dpRows_self (s : List α) :
    ∀ (cnt start : Nat) (j2len : Nat → Nat) (best : DPBest),
      start + cnt ≤ s.length →
      (∀ x, j2len x = prevRow s start x) →
      best.i = best.j →
      best.i + best.size ≤ s.length →
      (∀ r, r < start → mdp s r r ≤ best.size) →
      (dpRows s s 0 s.length (List.range' start cnt) j2len best).i =
        (dpRows s s 0 s.length (List.range' start cnt) j2len best).j ∧
      (dpRows s s 0 s.length (List.range' start cnt) j2len best).i +
        (dpRows s s 0 s.length (List.range' start cnt) j2len best).size ≤ s.length ∧
      (∀ r, r < start + cnt →
        mdp s r r ≤ (dpRows s s 0 s.length (List.range' start cnt) j2len best).size) := by
  intro cnt
  induction cnt with
  | zero =>
    intro start j2len best hle hj2 hb1 hb2 hb3
    rw [show List.range' start 0 = [] from rfl]
    simp only [dpRows]
    exact ⟨hb1, hb2, fun r hr => hb3 r (by omega)⟩
  | succ cnt2 ih =>
    intro start j2len best hle hj2 hb1 hb2 hb3
    rw [show List.range' start (cnt2+1) = start :: List.range' (start+1) cnt2 from rfl]
    simp only [dpRows]
    have hstart : start < s.length := by omega
    have hS : ∀ j ∈ b2jGet s (s.getD start default),
        s.getD j default = s.getD start default ∧
        isPopular s (s.getD start default) = false ∧ j < s.length := by
      intro j hj
      obtain ⟨h1, h2, h3⟩ := mem_b2jGet.mp hj
      exact ⟨h3, h1, h2⟩
    have hnewj : ∀ x, (0:Nat) =
        if x ∈ b2jGet s (s.getD start default) then 0 else mdp s start x := by
      intro x
      by_cases hx : x ∈ b2jGet s (s.getD start default)
      · rw [if_pos hx]
      · rw [if_neg hx]
        by_cases hm : 0 < mdp s start x
        · obtain ⟨h1, h2, h3⟩ := mdp_pos_cond hm
          exact absurd (mem_b2jGet.mpr ⟨h2, h3, h1⟩) hx
        · omega
    have hb4 : start ∈ b2jGet s (s.getD start default) ∨ mdp s start start ≤ best.size := by
      by_cases hp : isPopular s (s.getD start default) = false
      · exact Or.inl (mem_b2jGet.mpr ⟨hp, hstart, rfl⟩)
      · right
        rw [mdp_eq_zero_of_not_cond (fun hc => hp hc.2.1)]
        exact Nat.zero_le _
    have hd := dpInner_self s start hstart j2len hj2
      (b2jGet s (s.getD start default)) (fun _ => 0) best
      hS (b2jGet_pairwise s _) hnewj hb1 hb2 hb3 hb4
    obtain ⟨hrow, hd1, hd2, hd3, hd4⟩ := hd
    obtain ⟨g1, g2, g3⟩ := ih (start+1)
      (dpInner j2len 0 s.length start (b2jGet s (s.getD start default)) (fun _ => 0) best).1
      (dpInner j2len 0 s.length start (b2jGet s (s.getD start default)) (fun _ => 0) best).2
      (by omega)
      (fun x => by rw [hrow x]; rfl) hd1 hd2
      (fun r hr => by
        rcases Nat.lt_succ_iff_lt_or_eq.mp hr with h | h
        · exact hd3 r h
        · subst h; exact hd4)
    exact ⟨g1, g2, fun r hr => g3 r (by omega)⟩

theorem extendLeft_self (s : List α) :
    ∀ (d m : Nat), extendLeft s s 0 0 d (DPBest.mk d d m) = DPBest.mk 0 0 (d + m) := by
  intro d
  induction d with
  | zero =>
    intro m
    simp only [extendLeft]
    rw [Nat.zero_add]
  | succ d2 ih =>
    intro m
    simp only [extendLeft]
    rw [if_pos (show 0 < d2 + 1 ∧ 0 < d2 + 1 ∧ True
      from ⟨Nat.succ_pos d2, Nat.succ_pos d2, trivial⟩)]
    show extendLeft s s 0 0 d2 (DPBest.mk d2 d2 (m+1)) = DPBest.mk 0 0 (d2 + 1 + m)
    rw [ih (m+1), show d2 + (m + 1) = d2 + 1 + m by omega]

theorem extendRight_self (s : List α) :
    ∀ (k m : Nat), k = s.length - m → m ≤ s.length →
      extendRight s s s.length s.length k (DPBest.mk 0 0 m) = DPBest.mk 0 0 s.length := by
  intro k
  induction k with
  | zero =>
    intro m hk hm
    simp only [extendRight]
    rw [show m = s.length by omega]
  | succ k2 ih =>
    intro m hk hm
    have hmn : m < s.length := by omega
    simp only [extendRight]
    rw [if_pos (show 0 + m < s.length ∧ 0 + m < s.length ∧ True
      from ⟨by omega, by omega, trivial⟩)]
    exact ih (m+1) (by omega) (by omega)

theorem flm_assemble (s : List α) (d : DPBest) (hd : d.i = d.j)
    (hrange : d.i + d.size ≤ s.length) :
    extendRight s s s.length s.length
      (s.length - (extendLeft s s 0 0 d.i d).i - (extendLeft s s 0 0 d.i d).size)
      (extendLeft s s 0 0 d.i d) = DPBest.mk 0 0 s.length := by
  obtain ⟨di, dj, dm⟩ := d
  dsimp only at hd hrange ⊢
  subst hd
  rw [extendLeft_self s di dm]
  exact extendRight_self s _ (di + dm)
    (by show s.length - 0 - (di + dm) = s.length - (di + dm); omega) hrange

theorem findLongestMatch_self (s : List α) :
    findLongestMatch s s 0 s.length 0 s.length = DPBest.mk 0 0 s.length := by
  obtain ⟨h1, h2, _⟩ := dpRows_self s s.length 0 (fun _ => 0) (DPBest.mk 0 0 0)
    (by omega) (fun x => rfl) rfl (by show (0:Nat) + 0 ≤ s.length; omega)
    (fun r hr => absurd hr (Nat.not_lt_zero r))
  unfold findLongestMatch
  exact flm_assemble s
    (dpRows s s 0 s.length (List.range' 0 (s.length - 0)) (fun _ => 0) (DPBest.mk 0 0 0))
    h1 h2

theorem getMatchingBlocks_self (s : List α) (hs : s ≠ []) :
    getMatchingBlocks s s = [(0, 0, s.length), (s.length, s.length, 0)] := by
  have hn : 0 < s.length := List.length_pos.mpr hs
  unfold getMatchingBlocks
  dsimp only
  rw [show queueWeight [(0, s.length, 0, s.length)] = s.length + s.length + 1 by
    simp [queueWeight, rangeWeight]]
  simp only [gmbLoop]
  rw [findLongestMatch_self s]
  dsimp only
  rw [if_pos hn,
    if_neg (show ¬(0 + s.length < s.length ∧ 0 + s.length < s.length) by omega),
    if_neg (show ¬((0:Nat) < 0 ∧ (0:Nat) < 0) by omega)]
  simp only [List.nil_append]
  simp only [gmbLoop]
  simp only [sortTriples, insertTriple]
  simp only [mergeAdjacent]
  rw [if_pos (show True ∧ True from ⟨trivial, trivial⟩),
    if_pos (show 0 + s.length ≠ 0 by omega), Nat.zero_add]
  rfl

theorem matcherSimilarity_self (s : List α) (hs : s ≠ []) :
    matcherSimilarity s s = 1 := by
  have hn : 0 < s.length := List.length_pos.mpr hs
  unfold matcherSimilarity
  rw [getMatchingBlocks_self s hs]
  rw [if_pos (show s.length + s.length ≠ 0 by omega)]
  simp only [List.map_cons, List.map_nil, List.sum_cons, List.sum_nil]
  have hq : ((s.length : ℚ)) ≠ 0 := Nat.cast_ne_zero.mpr (by omega)
  push_cast
  have hq2 : (s.length : ℚ) + (s.length : ℚ) ≠ 0 := by positivity
  field_simp
  ring

end SelfMatch3

/-- C4: for every non-empty string s at the default threshold 0.05,
is_significant_change(s, s) is false — two identical strings have
similarity ratio exactly 1, hence change ratio 0, not above the threshold —
and whenever either argument is the empty string the function returns true
(in particular on ("", t)). -/
theorem is_significant_change_boundary (s t u v : String) (θ : ℚ)
    (hs : s ≠ "") (huv : u = "" ∨ v = "") :
    is_significant_change s s (0.05 : ℚ) = false ∧
    is_significant_change u v θ = true ∧
    is_significant_change "" t θ = true := by
  refine ⟨?_, ?_, ?_⟩
  · unfold is_significant_change
    rw [if_neg (by simp [hs])]
    have hdata : s.data ≠ [] := by
      intro h
      apply hs
      cases s with
      | mk d => cases h; rfl
    rw [matcherSimilarity_self s.data hdata]
    exact decide_eq_false (by norm_num)
  · unfold is_significant_change
    rw [if_pos huv]
  · unfold is_significant_change
    rw [if_pos (Or.inl rfl)]

/-- Witness for is_significant_change_boundary at concrete strings. -/
theorem is_significant_change_boundary_witness :
    is_significant_change "a" "a" (0.05 : ℚ) = false ∧
    is_significant_change "" "y" (0.05 : ℚ) = true ∧
    is_significant_change "" "x" (0.05 : ℚ) = true := by
  have h := is_significant_change_boundary "a" "x" "" "y" (0.05 : ℚ)
    (by decide) (Or.inl rfl)
  exact ⟨h.1, h.2.1, h.2.2⟩
